import Mathlib

/-!
# SSD1306 OLED driver and animation player

A shallow embedding of `ps/include/Ssd1306.hpp` (the register-level protocol
driver) and of the scheduler part of `ps/src/oled-driver-demo-freertos.cpp`
(the timer callback `showFrame` and the player task `playAnimationFn`).

The machine is explicit state: the two writable AXI registers, an oracle for
the values the Status register returns, the FreeRTOS software timer, and a
trace of every effect in program order.  The unbounded busy-wait of
`waitForSendDone` is modelled with a poll budget; running out of budget is a
distinct outcome that keeps the state reached so far.
-/

namespace OledDemo

/-! ## Machine words -/

/-- Conversion to `u32`: the value modulo `2^32`. -/
def u32 (x : Nat) : Nat := x % 4294967296

/-- Conversion to `u8`: the value modulo `2^8`. -/
def u8 (x : Nat) : Nat := x % 256

/-- Bitwise complement `~x` of a `u32`. -/
def not32 (x : Nat) : Nat := 4294967295 - x % 4294967296

/-! ## Register map (`ssd1306_driver.h`) and bit masks (`Ssd1306.hpp`) -/

abbrev SSD1306_DRIVER_S00_AXI_SLV_REG0_OFFSET : Nat := 0
abbrev SSD1306_DRIVER_S00_AXI_SLV_REG1_OFFSET : Nat := 4
abbrev SSD1306_DRIVER_S00_AXI_SLV_REG2_OFFSET : Nat := 8
abbrev SSD1306_DRIVER_S00_AXI_SLV_REG3_OFFSET : Nat := 12

abbrev SHOULD_TURN_POWER_ON_MASK : Nat := 1 <<< 0
abbrev SHOULD_SEND_DIN_MASK : Nat := 1 <<< 1
abbrev IS_DIN_DATA_MASK : Nat := 1 <<< 2
abbrev IS_DIN_U8_MASK : Nat := 1 <<< 3
abbrev IS_BUSY_MASK : Nat := 1 <<< 0

/-! ## Effects and machine state -/

/-- One observable action of the program, in the order it is performed:
register accesses (offset relative to the peripheral base, 32-bit value),
commands to the frame timer, stores to the Playback State, console output. -/
inductive Effect where
  | read (offset value : Nat)
  | write (offset value : Nat)
  | timerCreate (period : Nat)
  | timerStop
  | timerChangePeriod (period : Nat)
  | storeAnimationIdx (value : Nat)
  | storeFrameIdx (value : Nat)
  | print
  deriving DecidableEq, Repr

/-- The platform the program runs on.  `reg0` (Control) and `reg1` (Payload)
hold the last value written; the `n`-th read of Status (`reg2`) returns
`status n`, whatever the peripheral does; `polls` counts the Status reads made
so far.  `timerActive` and `timerPeriod` are the state of the one-shot frame
timer.  `trace` lists all effects, oldest first. -/
structure Machine where
  reg0 : Nat
  reg1 : Nat
  status : Nat → Nat
  polls : Nat
  timerActive : Bool
  timerPeriod : Nat
  trace : List Effect

/-- Outcome of running code that can busy-wait or index a buffer: it
returned (`done`), it was still polling a busy Status when the poll budget
ran out (`spinning`), or it indexed an array past its end (`outOfBounds`,
undefined behaviour in C++).  Each outcome carries the state reached. -/
inductive Run (α : Type) where
  | done (s : α)
  | spinning (s : α)
  | outOfBounds (s : α)

/-- The state an outcome carries. -/
def Run.state {α : Type} : Run α → α
  | .done s => s
  | .spinning s => s
  | .outOfBounds s => s

/-- Sequencing: continue with `f` only after a `done`. -/
def Run.bind {α : Type} (r : Run α) (f : α → Run α) : Run α :=
  match r with
  | .done s => f s
  | .spinning s => .spinning s
  | .outOfBounds s => .outOfBounds s

/-- Apply `f` to the carried state, keeping the kind of outcome. -/
def Run.map {α β : Type} (f : α → β) : Run α → Run β
  | .done s => .done (f s)
  | .spinning s => .spinning (f s)
  | .outOfBounds s => .outOfBounds (f s)

/-- Whether the outcome is a normal return. -/
def Run.isDone {α : Type} : Run α → Bool
  | .done _ => true
  | _ => false

/-- `SSD1306_DRIVER_mWriteReg(base, RegOffset, Data)`: `Xil_Out32` of
`(u32)(Data)`.  Status and the reserved register ignore writes. -/
def SSD1306_DRIVER_mWriteReg (RegOffset Data : Nat) (m : Machine) : Machine :=
  let m := { m with trace := m.trace ++ [Effect.write RegOffset (u32 Data)] }
  if RegOffset = SSD1306_DRIVER_S00_AXI_SLV_REG0_OFFSET then { m with reg0 := u32 Data }
  else if RegOffset = SSD1306_DRIVER_S00_AXI_SLV_REG1_OFFSET then { m with reg1 := u32 Data }
  else m

/-- `SSD1306_DRIVER_mReadReg(base, RegOffset)`: `Xil_In32`, a 32-bit read.
Returns the value and the machine after the read. -/
def SSD1306_DRIVER_mReadReg (RegOffset : Nat) (m : Machine) : Nat × Machine :=
  if RegOffset = SSD1306_DRIVER_S00_AXI_SLV_REG0_OFFSET then
    (u32 m.reg0, { m with trace := m.trace ++ [Effect.read RegOffset (u32 m.reg0)] })
  else if RegOffset = SSD1306_DRIVER_S00_AXI_SLV_REG1_OFFSET then
    (u32 m.reg1, { m with trace := m.trace ++ [Effect.read RegOffset (u32 m.reg1)] })
  else if RegOffset = SSD1306_DRIVER_S00_AXI_SLV_REG2_OFFSET then
    (u32 (m.status m.polls),
      { m with polls := m.polls + 1,
               trace := m.trace ++ [Effect.read RegOffset (u32 (m.status m.polls))] })
  else
    (0, { m with trace := m.trace ++ [Effect.read RegOffset 0] })

/-! ## The driver (`class Ssd1306`) -/

namespace Ssd1306

/-- The opcodes of `enum Command`. -/
inductive Command where
  | ActivateScroll
  | ChargePump
  | ColumnAddress
  | ComOutputScanDirectionNormal
  | ComOutputScanDirectionRemapped
  | ComPinsConfiguration
  | ContrastControl
  | DeactivateScroll
  | DisplayOffset
  | DisplayOff
  | DisplayOn
  | DisplayStartLine
  | EntireDisplayOn
  | EntireDisplayResume
  | HigherColumnStartAddress
  | InverseDisplay
  | LeftHorizontalScroll
  | LowerColumnStartAddress
  | MemoryAddressingMode
  | MultiplexRatio
  | Nop
  | NormalDisplay
  | OscillatorFrequency
  | PageAddress
  | PageStartAddress
  | PreChargePeriod
  | RightHorizontalScroll
  | SegmentReMap0
  | SegmentReMap127
  | VcomhDeselectLevel
  | VerticalLeftHorizontalScroll
  | VerticalRightHorizontalScroll
  | VerticalScrollArea
  deriving DecidableEq, Repr

/-- The numeric value of each enumerator. -/
def Command.opcode : Command → Nat
  | .ActivateScroll => 0x2F
  | .ChargePump => 0x8D
  | .ColumnAddress => 0x21
  | .ComOutputScanDirectionNormal => 0xC0
  | .ComOutputScanDirectionRemapped => 0xC8
  | .ComPinsConfiguration => 0xDA
  | .ContrastControl => 0x81
  | .DeactivateScroll => 0x2E
  | .DisplayOffset => 0xD3
  | .DisplayOff => 0xAE
  | .DisplayOn => 0xAF
  | .DisplayStartLine => 0x40
  | .EntireDisplayOn => 0xA5
  | .EntireDisplayResume => 0xA4
  | .HigherColumnStartAddress => 0x10
  | .InverseDisplay => 0xA7
  | .LeftHorizontalScroll => 0x27
  | .LowerColumnStartAddress => 0x00
  | .MemoryAddressingMode => 0x20
  | .MultiplexRatio => 0xA8
  | .Nop => 0xE3
  | .NormalDisplay => 0xA6
  | .OscillatorFrequency => 0xD5
  | .PageAddress => 0x22
  | .PageStartAddress => 0xB0
  | .PreChargePeriod => 0xD9
  | .RightHorizontalScroll => 0x26
  | .SegmentReMap0 => 0xA0
  | .SegmentReMap127 => 0xA1
  | .VcomhDeselectLevel => 0xDB
  | .VerticalLeftHorizontalScroll => 0x2A
  | .VerticalRightHorizontalScroll => 0x29
  | .VerticalScrollArea => 0xA3

/-- `Ssd1306::powerOn`. -/
def powerOn (m : Machine) : Machine :=
  SSD1306_DRIVER_mWriteReg SSD1306_DRIVER_S00_AXI_SLV_REG0_OFFSET SHOULD_TURN_POWER_ON_MASK m

/-- `Ssd1306::powerOff`. -/
def powerOff (m : Machine) : Machine :=
  SSD1306_DRIVER_mWriteReg SSD1306_DRIVER_S00_AXI_SLV_REG0_OFFSET
    (not32 SHOULD_TURN_POWER_ON_MASK &&& not32 SHOULD_SEND_DIN_MASK) m

/-- The `do { ... } while (reg2 & IS_BUSY_MASK)` loop of
`Ssd1306::waitForSendDone`, with the loop-carried locals `reg0` and
`read_flag` as arguments.  `fuel` bounds the number of iterations. -/
def waitForSendDone.loop : Nat → Nat → Bool → Machine → Run Machine
  | 0, _, _, m => .spinning m
  | fuel + 1, reg0, read_flag, m =>
    let reg2 := (SSD1306_DRIVER_mReadReg SSD1306_DRIVER_S00_AXI_SLV_REG2_OFFSET m).1
    let m := (SSD1306_DRIVER_mReadReg SSD1306_DRIVER_S00_AXI_SLV_REG2_OFFSET m).2
    if !read_flag then
      let reg0 := reg0 &&& not32 SHOULD_SEND_DIN_MASK
      let m := SSD1306_DRIVER_mWriteReg SSD1306_DRIVER_S00_AXI_SLV_REG0_OFFSET reg0 m
      if reg2 &&& IS_BUSY_MASK ≠ 0 then waitForSendDone.loop fuel reg0 true m else .done m
    else
      if reg2 &&& IS_BUSY_MASK ≠ 0 then waitForSendDone.loop fuel reg0 read_flag m else .done m

/-- `Ssd1306::waitForSendDone(reg0)`. -/
def waitForSendDone (fuel reg0 : Nat) (m : Machine) : Run Machine :=
  waitForSendDone.loop fuel reg0 false m

/-- `Ssd1306::sendWithWait(reg0, din)`: the handshake. -/
def sendWithWait (fuel reg0 din : Nat) (m : Machine) : Run Machine :=
  let m := SSD1306_DRIVER_mWriteReg SSD1306_DRIVER_S00_AXI_SLV_REG1_OFFSET din m
  let m := SSD1306_DRIVER_mWriteReg SSD1306_DRIVER_S00_AXI_SLV_REG0_OFFSET
    (reg0 ||| SHOULD_SEND_DIN_MASK) m
  waitForSendDone fuel reg0 m

/-- `Ssd1306::send(Command cmd)`. -/
def send_Command (fuel : Nat) (cmd : Command) (m : Machine) : Run Machine :=
  let reg0 := (SSD1306_DRIVER_mReadReg SSD1306_DRIVER_S00_AXI_SLV_REG0_OFFSET m).1
  let m := (SSD1306_DRIVER_mReadReg SSD1306_DRIVER_S00_AXI_SLV_REG0_OFFSET m).2
  if reg0 &&& SHOULD_TURN_POWER_ON_MASK ≠ 0 then
    (sendWithWait fuel ((reg0 ||| IS_DIN_U8_MASK) &&& not32 IS_DIN_DATA_MASK) cmd.opcode m).bind
      fun m => .done (SSD1306_DRIVER_mWriteReg SSD1306_DRIVER_S00_AXI_SLV_REG0_OFFSET reg0 m)
  else .done m

/-- `Ssd1306::send(Command cmd, u8 arg)`. -/
def send_Command_u8 (fuel : Nat) (cmd : Command) (arg : Nat) (m : Machine) : Run Machine :=
  let reg0 := (SSD1306_DRIVER_mReadReg SSD1306_DRIVER_S00_AXI_SLV_REG0_OFFSET m).1
  let m := (SSD1306_DRIVER_mReadReg SSD1306_DRIVER_S00_AXI_SLV_REG0_OFFSET m).2
  if reg0 &&& SHOULD_TURN_POWER_ON_MASK ≠ 0 then
    let r0 := (reg0 ||| IS_DIN_U8_MASK) &&& not32 IS_DIN_DATA_MASK
    (sendWithWait fuel r0 cmd.opcode m).bind fun m =>
    (sendWithWait fuel r0 (u8 arg) m).bind fun m =>
    .done (SSD1306_DRIVER_mWriteReg SSD1306_DRIVER_S00_AXI_SLV_REG0_OFFSET reg0 m)
  else .done m

/-- `Ssd1306::send(Command cmd, u8 arg1, u8 arg2)`. -/
def send_Command_u8_u8 (fuel : Nat) (cmd : Command) (arg1 arg2 : Nat) (m : Machine) :
    Run Machine :=
  let reg0 := (SSD1306_DRIVER_mReadReg SSD1306_DRIVER_S00_AXI_SLV_REG0_OFFSET m).1
  let m := (SSD1306_DRIVER_mReadReg SSD1306_DRIVER_S00_AXI_SLV_REG0_OFFSET m).2
  if reg0 &&& SHOULD_TURN_POWER_ON_MASK ≠ 0 then
    let r0 := (reg0 ||| IS_DIN_U8_MASK) &&& not32 IS_DIN_DATA_MASK
    (sendWithWait fuel r0 cmd.opcode m).bind fun m =>
    (sendWithWait fuel r0 (u8 arg1) m).bind fun m =>
    (sendWithWait fuel r0 (u8 arg2) m).bind fun m =>
    .done (SSD1306_DRIVER_mWriteReg SSD1306_DRIVER_S00_AXI_SLV_REG0_OFFSET reg0 m)
  else .done m

/-- The loop `for (int i = 0; i < nels; ++i) sendWithWait(r, data[i]);` of the
two buffer overloads, started at index `i` with `n` iterations left (the loop
runs `nels` times for `nels > 0` and not at all otherwise).  `cast` is the
conversion of `data[i]` to its element type. -/
def send.loop (fuel r : Nat) (data : List Nat) (cast : Nat → Nat) :
    Nat → Nat → Machine → Run Machine
  | 0, _, m => .done m
  | n + 1, i, m =>
    match data[i]? with
    | none => .outOfBounds m
    | some d => (sendWithWait fuel r (cast d) m).bind (send.loop fuel r data cast n (i + 1))

/-- `Ssd1306::send(u32 data[], int nels)`. -/
def send_u32s (fuel : Nat) (data : List Nat) (nels : Int) (m : Machine) : Run Machine :=
  let reg0 := (SSD1306_DRIVER_mReadReg SSD1306_DRIVER_S00_AXI_SLV_REG0_OFFSET m).1
  let m := (SSD1306_DRIVER_mReadReg SSD1306_DRIVER_S00_AXI_SLV_REG0_OFFSET m).2
  if reg0 &&& SHOULD_TURN_POWER_ON_MASK ≠ 0 then
    (send.loop fuel ((reg0 ||| IS_DIN_DATA_MASK) &&& not32 IS_DIN_U8_MASK) data u32
      nels.toNat 0 m).bind
      fun m => .done (SSD1306_DRIVER_mWriteReg SSD1306_DRIVER_S00_AXI_SLV_REG0_OFFSET reg0 m)
  else .done m

/-- `Ssd1306::send(u8 data[], int nels)`. -/
def send_u8s (fuel : Nat) (data : List Nat) (nels : Int) (m : Machine) : Run Machine :=
  let reg0 := (SSD1306_DRIVER_mReadReg SSD1306_DRIVER_S00_AXI_SLV_REG0_OFFSET m).1
  let m := (SSD1306_DRIVER_mReadReg SSD1306_DRIVER_S00_AXI_SLV_REG0_OFFSET m).2
  if reg0 &&& SHOULD_TURN_POWER_ON_MASK ≠ 0 then
    (send.loop fuel (reg0 ||| IS_DIN_DATA_MASK ||| IS_DIN_U8_MASK) data u8
      nels.toNat 0 m).bind
      fun m => .done (SSD1306_DRIVER_mWriteReg SSD1306_DRIVER_S00_AXI_SLV_REG0_OFFSET reg0 m)
  else .done m

/-- `Ssd1306::send(u8 din, bool is_din_data = false)`. -/
def send_u8 (fuel : Nat) (din : Nat) (is_din_data : Bool) (m : Machine) : Run Machine :=
  let reg0 := (SSD1306_DRIVER_mReadReg SSD1306_DRIVER_S00_AXI_SLV_REG0_OFFSET m).1
  let m := (SSD1306_DRIVER_mReadReg SSD1306_DRIVER_S00_AXI_SLV_REG0_OFFSET m).2
  if reg0 &&& SHOULD_TURN_POWER_ON_MASK ≠ 0 then
    let r0 := reg0 ||| IS_DIN_U8_MASK
    (sendWithWait fuel
      (if is_din_data then r0 ||| IS_DIN_DATA_MASK else r0 &&& not32 IS_DIN_DATA_MASK)
      (u8 din) m).bind
      fun m => .done (SSD1306_DRIVER_mWriteReg SSD1306_DRIVER_S00_AXI_SLV_REG0_OFFSET reg0 m)
  else .done m

end Ssd1306

open Ssd1306

/-- A call of one of the six `send` overloads with its arguments. -/
inductive SendCall where
  | command (cmd : Command)
  | commandArg (cmd : Command) (arg : Nat)
  | commandArgs (cmd : Command) (arg1 arg2 : Nat)
  | words (data : List Nat) (nels : Int)
  | bytes (data : List Nat) (nels : Int)
  | byte (din : Nat) (is_din_data : Bool)

/-- Overload resolution: run the overload the call names. -/
def SendCall.run (fuel : Nat) : SendCall → Machine → Run Machine
  | .command cmd => send_Command fuel cmd
  | .commandArg cmd arg => send_Command_u8 fuel cmd arg
  | .commandArgs cmd arg1 arg2 => send_Command_u8_u8 fuel cmd arg1 arg2
  | .words data nels => send_u32s fuel data nels
  | .bytes data nels => send_u8s fuel data nels
  | .byte din is_din_data => send_u8 fuel din is_din_data

/-! ## The animation player (`oled-driver-demo-freertos.cpp`) -/

/-- Conversion to `size_t`, taken to be 32 bits wide as on the 32-bit ARM
target of the demo (the driver passes addresses as `u32`). -/
def size_t (x : Nat) : Nat := x % 4294967296

/-- Conversion of an `int` to a 32-bit unsigned type. -/
def toU32 (x : Int) : Nat := (x % 4294967296).toNat

/-- Conversion of a 32-bit unsigned value to `int` (two's complement). -/
def toInt (x : Nat) : Int :=
  if x % 4294967296 < 2147483648 then ((x % 4294967296 : Nat) : Int)
  else ((x % 4294967296 : Nat) : Int) - 4294967296

/-- The FreeRTOS port macro `portTICK_PERIOD_MS`, which this repository uses
but does not define: its value, and whether the expression has an unsigned
32-bit type (`TickType_t`, as in `((TickType_t) 1000 / configTICK_RATE_HZ)`)
or is a plain `int`.  Both are parameters of the model. -/
structure Port where
  portTICK_PERIOD_MS : Nat
  tickUnsigned : Bool

/-- `struct Frames`: `u32 buffer[1*128]` and `int delay`. -/
structure Frames where
  buffer : List Nat
  delay : Int

/-- `struct Animation`: the array `frames` points to, and `framesNb`. -/
structure Animation where
  frames : List Frames
  framesNb : Nat

/-- `struct Application`.  The queue and task handles carry no state of the
model; `machine` is the display `display` points to together with the timer
`animationTimer`. -/
structure Application where
  animations : List Animation
  animationsNb : Nat
  animationIdx : Nat
  frameIdx : Nat
  machine : Machine

/-- Modelled from the spec: the FreeRTOS call
`xTimerCreate(name, period, pdFALSE, id, callback)`, whose code is not part of
the sources.  It creates a one-shot timer in the dormant state. -/
def xTimerCreate (xTimerPeriod : Nat) (m : Machine) : Machine :=
  { m with timerActive := false, timerPeriod := xTimerPeriod,
           trace := m.trace ++ [Effect.timerCreate xTimerPeriod] }

/-- Modelled from the spec: the FreeRTOS call `xTimerIsTimerActive(timer)`,
whose code is not part of the sources: whether the timer is armed. -/
def xTimerIsTimerActive (m : Machine) : Bool := m.timerActive

/-- Modelled from the spec: the FreeRTOS call `xTimerStop(timer, 100)`, whose
code is not part of the sources.  The timer is disarmed synchronously: it
becomes dormant. -/
def xTimerStop (m : Machine) : Machine :=
  { m with timerActive := false, trace := m.trace ++ [Effect.timerStop] }

/-- Modelled from the spec: the FreeRTOS call
`xTimerChangePeriod(timer, xNewPeriod, 100)`, whose code is not part of the
sources.  It sets the period and arms the timer, also when it was dormant
("This *will* activate the timer" in `playAnimationFn`). -/
def xTimerChangePeriod (xNewPeriod : Nat) (m : Machine) : Machine :=
  { m with timerActive := true, timerPeriod := xNewPeriod,
           trace := m.trace ++ [Effect.timerChangePeriod xNewPeriod] }

/-- The console output `print(...)`; the text is not recorded. -/
def print (m : Machine) : Machine :=
  { m with trace := m.trace ++ [Effect.print] }

/-- Run a driver call on the display of the application. -/
def onDisplay (call : Machine → Run Machine) (app : Application) : Run Application :=
  Run.map (fun m => { app with machine := m }) (call app.machine)

/-- The assignment `application->animationIdx = v`. -/
def storeAnimationIdx (v : Nat) (app : Application) : Application :=
  { app with animationIdx := v,
             machine := { app.machine with
               trace := app.machine.trace ++ [Effect.storeAnimationIdx v] } }

/-- The assignment `application->frameIdx = v`. -/
def storeFrameIdx (v : Nat) (app : Application) : Application :=
  { app with frameIdx := v,
             machine := { app.machine with
               trace := app.machine.trace ++ [Effect.storeFrameIdx v] } }

/-- The local `delay` of `showFrame` after
`if (delay < portTICK_PERIOD_MS) delay = portTICK_PERIOD_MS;`, for the stored
duration `d`.  With an unsigned tick type the comparison converts `delay` to
unsigned. -/
def showFrame.delay (port : Port) (d : Int) : Int :=
  if port.tickUnsigned then
    if toU32 d < port.portTICK_PERIOD_MS then toInt port.portTICK_PERIOD_MS else d
  else
    if d < (port.portTICK_PERIOD_MS : Int) then (port.portTICK_PERIOD_MS : Int) else d

/-- The argument `delay / portTICK_PERIOD_MS` of `xTimerChangePeriod` in
`showFrame`, converted to `TickType_t`.  With an unsigned tick type the
division is unsigned. -/
def showFrame.period (port : Port) (delay : Int) : Nat :=
  if port.tickUnsigned then toU32 delay / port.portTICK_PERIOD_MS
  else toU32 (Int.tdiv delay (port.portTICK_PERIOD_MS : Int))

/-- The next frame index: `++frameIdx; if (frameIdx == framesNb) frameIdx = 0;`. -/
def showFrame.next (framesNb frameIdx : Nat) : Nat :=
  if size_t (frameIdx + 1) = framesNb then 0 else size_t (frameIdx + 1)

/-- The timer callback `showFrame(xTimer)`; the timer ID is the application. -/
def showFrame (port : Port) (fuel : Nat) (application : Application) : Run Application :=
  match application.animations[application.animationIdx]? with
  | none => .outOfBounds application
  | some animation =>
    let frames := animation.frames
    let framesNb := animation.framesNb
    let frameIdx := application.frameIdx
    (onDisplay (send_Command_u8_u8 fuel .ColumnAddress 0 127) application).bind fun application =>
    (onDisplay (send_Command_u8_u8 fuel .PageAddress 0 3) application).bind fun application =>
    (onDisplay (send_u32s fuel ((frames[frameIdx]?.map Frames.buffer).getD []) 128)
      application).bind fun application =>
    match frames[frameIdx]? with
    | none => .outOfBounds application
    | some frame =>
      let delay := showFrame.delay port frame.delay
      let application :=
        { application with
          machine := xTimerChangePeriod (showFrame.period port delay) application.machine }
      .done (storeFrameIdx (showFrame.next framesNb frameIdx) application)

/-- One iteration of the `while(true)` loop of `playAnimationFn`.  `received`
is the outcome of `xQueueReceive(queue, &animation_idx, 100)`: `none` when it
timed out (`bt` is false), `some animation_idx` otherwise. -/
def playAnimationFn.step (received : Option Nat) (application : Application) : Application :=
  match received with
  | none => application
  | some animation_idx =>
    if animation_idx ≠ application.animationIdx then
      if animation_idx > application.animationsNb then
        { application with machine := print application.machine }
      else
        let application :=
          if xTimerIsTimerActive application.machine then
            { application with machine := xTimerStop application.machine }
          else application
        let application := storeAnimationIdx animation_idx application
        let application := storeFrameIdx 0 application
        { application with machine := xTimerChangePeriod 1 application.machine }
    else application

/-- The task `playAnimationFn`, run over a finite sequence of receive outcomes. -/
def playAnimationFn (received : List (Option Nat)) (application : Application) : Application :=
  received.foldl (fun app r => playAnimationFn.step r app) application

/-- The part of `main` before the scheduler starts: the `Application`
constructor (`animationIdx(-1)`, `frameIdx(-1)`), the timer creation, and
switching the display on.  Queue and task creation and `sleep(1)` do not
touch the modelled state. -/
def main (fuel : Nat) (animations : List Animation) (m : Machine) : Run Application :=
  let application : Application :=
    { animations := animations, animationsNb := animations.length,
      animationIdx := size_t 4294967295, frameIdx := size_t 4294967295, machine := m }
  let application := { application with machine := xTimerCreate 1 application.machine }
  let application := { application with machine := powerOn application.machine }
  onDisplay (send_Command fuel .EntireDisplayOn) application

/-! ## Vocabulary of the properties -/

/-- The values written to the Payload register, in order. -/
def payloadWrites : List Effect → List Nat
  | [] => []
  | Effect.write offset value :: rest =>
    if offset = SSD1306_DRIVER_S00_AXI_SLV_REG1_OFFSET then value :: payloadWrites rest
    else payloadWrites rest
  | _ :: rest => payloadWrites rest

/-- The values written to the Control register, in order. -/
def controlWrites : List Effect → List Nat
  | [] => []
  | Effect.write offset value :: rest =>
    if offset = SSD1306_DRIVER_S00_AXI_SLV_REG0_OFFSET then value :: controlWrites rest
    else controlWrites rest
  | _ :: rest => controlWrites rest

/-- The periods handed to the frame timer (on creation or on a change of
period), in order. -/
def timerPeriods : List Effect → List Nat
  | [] => []
  | Effect.timerCreate period :: rest => period :: timerPeriods rest
  | Effect.timerChangePeriod period :: rest => period :: timerPeriods rest
  | _ :: rest => timerPeriods rest

/-- The Status value `v` reports the peripheral busy. -/
def isBusy (v : Nat) : Prop := u32 v &&& IS_BUSY_MASK ≠ 0

instance (v : Nat) : Decidable (isBusy v) := by unfold isBusy; infer_instance

/-- Status eventually reads not-busy, from every point on. -/
def EventuallyIdle (status : Nat → Nat) : Prop :=
  ∀ n, ∃ k, ¬ isBusy (status (n + k))

/-- The transfer units a call supplies, in call or index order. -/
def SendCall.units : SendCall → List Nat
  | .command cmd => [cmd.opcode]
  | .commandArg cmd arg => [cmd.opcode, arg]
  | .commandArgs cmd arg1 arg2 => [cmd.opcode, arg1, arg2]
  | .words data nels => data.take nels.toNat
  | .bytes data nels => data.take nels.toNat
  | .byte din _ => [din]

/-- The arguments of the call fit their C++ types: `u8` values are below
`2^8`, `u32` values below `2^32`, and a count is between 0 and the length of
its buffer. -/
def SendCall.WellTyped : SendCall → Prop
  | .command _ => True
  | .commandArg _ arg => arg < 256
  | .commandArgs _ arg1 arg2 => arg1 < 256 ∧ arg2 < 256
  | .words data nels => (∀ d ∈ data, d < 4294967296) ∧ 0 ≤ nels ∧ nels ≤ data.length
  | .bytes data nels => (∀ d ∈ data, d < 256) ∧ 0 ≤ nels ∧ nels ≤ data.length
  | .byte din _ => din < 256

instance (call : SendCall) : Decidable call.WellTyped := by
  cases call <;> unfold SendCall.WellTyped <;> infer_instance

/-- The data-mode bit (bit 2) a call puts in Control. -/
def SendCall.dataMode : SendCall → Bool
  | .command _ => false
  | .commandArg _ _ => false
  | .commandArgs _ _ _ => false
  | .words _ _ => true
  | .bytes _ _ => true
  | .byte _ is_din_data => is_din_data

/-- The width bit (bit 3, set for 8-bit units) a call puts in Control. -/
def SendCall.width8 : SendCall → Bool
  | .command _ => true
  | .commandArg _ _ => true
  | .commandArgs _ _ _ => true
  | .words _ _ => false
  | .bytes _ _ => true
  | .byte _ _ => true

/-- The control value (without the send-request bit) the overload hands to every
one of its handshakes, for the Control value `c` read on entry. -/
def SendCall.control (c : Nat) : SendCall → Nat
  | .command _ => (c ||| IS_DIN_U8_MASK) &&& not32 IS_DIN_DATA_MASK
  | .commandArg _ _ => (c ||| IS_DIN_U8_MASK) &&& not32 IS_DIN_DATA_MASK
  | .commandArgs _ _ _ => (c ||| IS_DIN_U8_MASK) &&& not32 IS_DIN_DATA_MASK
  | .words _ _ => (c ||| IS_DIN_DATA_MASK) &&& not32 IS_DIN_U8_MASK
  | .bytes _ _ => c ||| IS_DIN_DATA_MASK ||| IS_DIN_U8_MASK
  | .byte _ is_din_data =>
    if is_din_data then (c ||| IS_DIN_U8_MASK) ||| IS_DIN_DATA_MASK
    else (c ||| IS_DIN_U8_MASK) &&& not32 IS_DIN_DATA_MASK

/-- The units of a call after conversion to the parameter type of the overload. -/
def SendCall.wire : SendCall → List Nat
  | .command cmd => [cmd.opcode]
  | .commandArg cmd arg => [cmd.opcode, u8 arg]
  | .commandArgs cmd arg1 arg2 => [cmd.opcode, u8 arg1, u8 arg2]
  | .words data nels => (data.take nels.toNat).map u32
  | .bytes data nels => (data.take nels.toNat).map u8
  | .byte din _ => [u8 din]

/-- The count of a buffer call does not exceed the buffer. -/
def SendCall.InBounds : SendCall → Prop
  | .words data nels => nels.toNat ≤ data.length
  | .bytes data nels => nels.toNat ≤ data.length
  | _ => True

instance (call : SendCall) : Decidable call.InBounds := by
  cases call <;> unfold SendCall.InBounds <;> infer_instance

/-- A run of handshakes with the same control value, one per unit, in order. -/
def handshakes (fuel r : Nat) : List Nat → Machine → Run Machine
  | [], m => .done m
  | din :: dins, m => (sendWithWait fuel r din m).bind (handshakes fuel r dins)

/-- The Status reads `status p, status (p + 1), ...`, `n` of them. -/
def pollReads (status : Nat → Nat) : Nat → Nat → List Effect
  | _, 0 => []
  | p, n + 1 =>
    Effect.read SSD1306_DRIVER_S00_AXI_SLV_REG2_OFFSET (u32 (status p)) ::
      pollReads status (p + 1) n

/-- The machine after one read of Status. -/
def Machine.polled (m : Machine) : Machine :=
  { m with polls := m.polls + 1,
           trace := m.trace ++
             [Effect.read SSD1306_DRIVER_S00_AXI_SLV_REG2_OFFSET (u32 (m.status m.polls))] }

/-- The machine after a read of Control. -/
def Machine.readControl (m : Machine) : Machine :=
  { m with trace := m.trace ++
      [Effect.read SSD1306_DRIVER_S00_AXI_SLV_REG0_OFFSET (u32 m.reg0)] }

/-- The machine after a write of the `u32` value `v` to Control. -/
def Machine.wroteControl (v : Nat) (m : Machine) : Machine :=
  { m with reg0 := v,
           trace := m.trace ++ [Effect.write SSD1306_DRIVER_S00_AXI_SLV_REG0_OFFSET v] }

/-- The machine after a write of the `u32` value `v` to Payload. -/
def Machine.wrotePayload (v : Nat) (m : Machine) : Machine :=
  { m with reg1 := v,
           trace := m.trace ++ [Effect.write SSD1306_DRIVER_S00_AXI_SLV_REG1_OFFSET v] }

/-- The effect is an access to a register of the peripheral. -/
def Effect.isReg : Effect → Bool
  | .read _ _ => true
  | .write _ _ => true
  | _ => false

/-- With any large enough poll budget the code returns, in state `s`. -/
def Completes {α : Type} (run : Nat → Run α) (s : α) : Prop :=
  ∃ budget, ∀ fuel, budget ≤ fuel → run fuel = Run.done s

/-- The timer callback run `k` times in a row, no selection arriving in
between. -/
def expiries (port : Port) (fuel : Nat) : Nat → Application → Run Application
  | 0, application => .done application
  | k + 1, application => (expiries port fuel k application).bind (showFrame port fuel)

/-- The machine `s` is reached from `m` by the register accesses `ops` and
nothing else: the Status oracle and the timer are as in `m`. -/
structure Machine.RegSteps (m s : Machine) (ops : List Effect) : Prop where
  trace : s.trace = m.trace ++ ops
  status : s.status = m.status
  timerActive : s.timerActive = m.timerActive
  timerPeriod : s.timerPeriod = m.timerPeriod
  regs : ∀ e ∈ ops, e.isReg = true

/-- Every Control write among `ops` is one of the two a handshake with control
value `r` makes: `r` with the send-request bit set, or `r` with it clear. -/
def HandshakeWrites (r : Nat) (ops : List Effect) : Prop :=
  ∀ v ∈ controlWrites ops,
    v = u32 (r ||| SHOULD_SEND_DIN_MASK) ∨ v = u32 (r &&& not32 SHOULD_SEND_DIN_MASK)

/-- The effects `ops` are complete handshakes with control value `r`, one for
each value of `dins` in order and nothing else: each writes its value to
Payload, writes `r` with the send-request bit to Control, reads Status,
writes `r` without the send-request bit to Control, and then only reads
Status. -/
def Handshakes (r : Nat) : List Nat → List Effect → Prop
  | [], ops => ops = []
  | din :: dins, ops =>
    ∃ status later rest,
      ops = [Effect.write SSD1306_DRIVER_S00_AXI_SLV_REG1_OFFSET din,
             Effect.write SSD1306_DRIVER_S00_AXI_SLV_REG0_OFFSET (r ||| SHOULD_SEND_DIN_MASK),
             Effect.read SSD1306_DRIVER_S00_AXI_SLV_REG2_OFFSET status,
             Effect.write SSD1306_DRIVER_S00_AXI_SLV_REG0_OFFSET
               (r &&& not32 SHOULD_SEND_DIN_MASK)] ++ later ++ rest ∧
      (∀ e ∈ later, ∃ v, e = Effect.read SSD1306_DRIVER_S00_AXI_SLV_REG2_OFFSET v) ∧
      Handshakes r dins rest

/-- The effects of one handshake with control value `r` and unit `din` that
reads Status `k + 1` times, the first read being number `p` of the oracle. -/
def handshakeOps (status : Nat → Nat) (p r din k : Nat) : List Effect :=
  Effect.write SSD1306_DRIVER_S00_AXI_SLV_REG1_OFFSET (u32 din) ::
  Effect.write SSD1306_DRIVER_S00_AXI_SLV_REG0_OFFSET (u32 (r ||| SHOULD_SEND_DIN_MASK)) ::
  Effect.read SSD1306_DRIVER_S00_AXI_SLV_REG2_OFFSET (u32 (status p)) ::
  Effect.write SSD1306_DRIVER_S00_AXI_SLV_REG0_OFFSET
    (u32 (r &&& not32 SHOULD_SEND_DIN_MASK)) ::
  pollReads status (p + 1) k

/-- The machine after a handshake with control value `r` and unit `din` that
read Status `k + 1` times. -/
def Machine.afterHandshake (r din k : Nat) (m : Machine) : Machine :=
  { m with reg0 := u32 (r &&& not32 SHOULD_SEND_DIN_MASK), reg1 := u32 din,
           polls := m.polls + (k + 1),
           trace := m.trace ++ handshakeOps m.status m.polls r din k }

/-- The values returned by reads of the Status register, in order. -/
def statusReads : List Effect → List Nat
  | [] => []
  | Effect.read offset value :: rest =>
    if offset = SSD1306_DRIVER_S00_AXI_SLV_REG2_OFFSET then value :: statusReads rest
    else statusReads rest
  | _ :: rest => statusReads rest

/-- The effect is a Control write that sets the send-request bit (bit 1). -/
def Effect.isSendRequest : Effect → Bool
  | .write offset value =>
    decide (offset = SSD1306_DRIVER_S00_AXI_SLV_REG0_OFFSET) && value.testBit 1
  | _ => false

/-- The effect is a Status read that returned not busy. -/
def Effect.isIdleRead : Effect → Bool
  | .read offset value =>
    decide (offset = SSD1306_DRIVER_S00_AXI_SLV_REG2_OFFSET) && !decide (isBusy value)
  | _ => false

/-- The busy gate after one more effect: a send-request closes it, a Status
read that returned not busy opens it, anything else leaves it as it is. -/
def gateStep (gate : Bool) (e : Effect) : Bool :=
  if e.isSendRequest then false else if e.isIdleRead then true else gate

/-- The busy gate after the effects `ops`, starting from `gate`. -/
def gateAfter : Bool → List Effect → Bool
  | gate, [] => gate
  | gate, e :: rest => gateAfter (gateStep gate e) rest

/-- Every send-request among the effects finds the gate open: it is preceded,
after any earlier send-request, by a Status read that returned not busy.
`gate` is the state of the gate before the first effect: `false` when only
reads among these effects count, `true` when a not-busy read from before
them counts for the first send-request. -/
def busyGated : Bool → List Effect → Bool
  | _, [] => true
  | gate, e :: rest => (!e.isSendRequest || gate) && busyGated (gateStep gate e) rest

/-- One operation of the public interface of the driver. -/
inductive DriverOp where
  | powerOn
  | powerOff
  | send (call : SendCall)

/-- Run one driver operation. -/
def DriverOp.run (fuel : Nat) : DriverOp → Machine → Run Machine
  | .powerOn, m => .done (Ssd1306.powerOn m)
  | .powerOff, m => .done (Ssd1306.powerOff m)
  | .send call, m => call.run fuel m

/-- Run a finite sequence of driver operations, each one started when the one
before it has returned. -/
def DriverOp.runAll (fuel : Nat) : List DriverOp → Machine → Run Machine
  | [], m => .done m
  | op :: ops, m => (op.run fuel m).bind (DriverOp.runAll fuel ops)

/-- The value Control is expected to hold after the operations when it held
`c` before them: 1 after a `powerOn`, `0xFFFFFFFC` after a `powerOff`, and
unchanged by a `send`. -/
def DriverOp.atRest (c : Nat) : List DriverOp → Nat
  | [] => c
  | .powerOn :: ops => DriverOp.atRest 1 ops
  | .powerOff :: ops => DriverOp.atRest 4294967292 ops
  | .send _ :: ops => DriverOp.atRest c ops

/-! ## Concrete inputs for the examples -/

/-- A display that was switched off, with nothing logged yet. -/
def offMachine : Machine :=
  { reg0 := 4294967292, reg1 := 0, status := fun _ => 1, polls := 0,
    timerActive := false, timerPeriod := 1, trace := [] }

/-- A display that is switched on, whose Status reads busy twice and idle on
every third read. -/
def onMachine : Machine :=
  { reg0 := 1, reg1 := 0, status := fun n => if n % 3 = 2 then 0 else 1, polls := 0,
    timerActive := false, timerPeriod := 1, trace := [] }

/-- A frame with an all-zero buffer of 128 words and the duration `d`. -/
def demoFrame (d : Int) : Frames := { buffer := List.replicate 128 0, delay := d }

/-- Four animations, as in `main`; the first has four frames, the second
three frames of durations 50, 100 and 150. -/
def demoAnimations : List Animation :=
  [{ frames := [demoFrame 10, demoFrame 20, demoFrame 30, demoFrame 40], framesNb := 4 },
   { frames := [demoFrame 50, demoFrame 100, demoFrame 150], framesNb := 3 },
   { frames := [demoFrame 0], framesNb := 1 },
   { frames := [demoFrame 5, demoFrame 5], framesNb := 2 }]

/-- Animation 0 is playing at frame 2 of 4 and the frame timer is armed. -/
def playingApp : Application :=
  { animations := demoAnimations, animationsNb := 4, animationIdx := 0, frameIdx := 2,
    machine := { onMachine with timerActive := true } }

/-- A tick of 10 ms (`configTICK_RATE_HZ` of 100) with an unsigned tick type. -/
def tenMsPort : Port := { portTICK_PERIOD_MS := 10, tickUnsigned := true }

/-- Animation 1 was just selected: Playback State (1, 0), timer armed. -/
def selectedApp : Application := playAnimationFn.step (some 1) playingApp

/-- Animation 1 selected at frame 0 while the display is switched off. -/
def darkApp : Application :=
  { animations := demoAnimations, animationsNb := 4, animationIdx := 1, frameIdx := 0,
    machine := offMachine }

/-- A machine whose Status never stops reading busy. -/
def stuckMachine : Machine :=
  { reg0 := 1, reg1 := 0, status := fun _ => 1, polls := 0,
    timerActive := false, timerPeriod := 1, trace := [] }

/-! # Proofs -/

/-! ## Machine words and bits -/

theorem u32_lt (x : Nat) : u32 x < 4294967296 := Nat.mod_lt _ (by decide)

theorem u32_of_lt {x : Nat} (h : x < 4294967296) : u32 x = x := Nat.mod_eq_of_lt h

theorem u32_u32 (x : Nat) : u32 (u32 x) = u32 x := u32_of_lt (u32_lt x)

theorem u8_of_lt {x : Nat} (h : x < 256) : u8 x = x := Nat.mod_eq_of_lt h

theorem and_one_eq_zero_iff (c : Nat) : c &&& 1 = 0 ↔ c.testBit 0 = false := by
  rw [Nat.and_one_is_mod, Nat.testBit_zero]
  simp

theorem power_test_off {c : Nat} (h : c.testBit 0 = false) :
    ¬ (c &&& SHOULD_TURN_POWER_ON_MASK ≠ 0) := by
  simpa using (and_one_eq_zero_iff c).2 h

theorem power_test_on {c : Nat} (h : c.testBit 0 = true) :
    c &&& SHOULD_TURN_POWER_ON_MASK ≠ 0 := by
  intro h0
  have := (and_one_eq_zero_iff c).1 (by simpa using h0)
  simp [h] at this

/-! ## Unfolding the register macros and the handshake -/

theorem writeReg0_eq (v : Nat) (m : Machine) :
    SSD1306_DRIVER_mWriteReg SSD1306_DRIVER_S00_AXI_SLV_REG0_OFFSET v m =
      m.wroteControl (u32 v) := rfl

theorem writeReg1_eq (v : Nat) (m : Machine) :
    SSD1306_DRIVER_mWriteReg SSD1306_DRIVER_S00_AXI_SLV_REG1_OFFSET v m =
      m.wrotePayload (u32 v) := rfl

theorem readReg2_eq (m : Machine) :
    SSD1306_DRIVER_mReadReg SSD1306_DRIVER_S00_AXI_SLV_REG2_OFFSET m =
      (u32 (m.status m.polls), m.polled) := rfl

theorem readReg0_eq (m : Machine) :
    SSD1306_DRIVER_mReadReg SSD1306_DRIVER_S00_AXI_SLV_REG0_OFFSET m =
      (u32 m.reg0, m.readControl) := rfl

theorem loop_zero (r : Nat) (flag : Bool) (m : Machine) :
    waitForSendDone.loop 0 r flag m = Run.spinning m := rfl

theorem loop_succ_true (fuel r : Nat) (m : Machine) :
    waitForSendDone.loop (fuel + 1) r true m =
      if isBusy (m.status m.polls) then waitForSendDone.loop fuel r true m.polled
      else Run.done m.polled := rfl

theorem loop_succ_false (fuel r : Nat) (m : Machine) :
    waitForSendDone.loop (fuel + 1) r false m =
      if isBusy (m.status m.polls) then
        waitForSendDone.loop fuel (r &&& not32 SHOULD_SEND_DIN_MASK) true
          (m.polled.wroteControl (u32 (r &&& not32 SHOULD_SEND_DIN_MASK)))
      else Run.done (m.polled.wroteControl (u32 (r &&& not32 SHOULD_SEND_DIN_MASK))) := rfl

theorem sendWithWait_eq (fuel r din : Nat) (m : Machine) :
    sendWithWait fuel r din m =
      waitForSendDone.loop fuel r false
        ((m.wrotePayload (u32 din)).wroteControl (u32 (r ||| SHOULD_SEND_DIN_MASK))) := rfl

theorem sendWithWait_zero (r din : Nat) (m : Machine) :
    sendWithWait 0 r din m = Run.spinning
      ((m.wrotePayload (u32 din)).wroteControl (u32 (r ||| SHOULD_SEND_DIN_MASK))) := rfl

/-! ## The state a handshake reaches, for every budget and every Status -/

theorem loop_true_state (fuel r : Nat) (m : Machine) :
    ∃ n, (waitForSendDone.loop fuel r true m).state =
      { m with polls := m.polls + n, trace := m.trace ++ pollReads m.status m.polls n } := by
  induction fuel generalizing m with
  | zero => exact ⟨0, by simp [loop_zero, Run.state, pollReads]⟩
  | succ fuel ih =>
    rw [loop_succ_true]
    by_cases hb : isBusy (m.status m.polls)
    · obtain ⟨n, hn⟩ := ih m.polled
      refine ⟨n + 1, ?_⟩
      rw [if_pos hb, hn]
      simp [Machine.polled, pollReads, Nat.add_assoc, Nat.add_comm 1 n]
    · refine ⟨1, ?_⟩
      rw [if_neg hb]
      simp [Machine.polled, Run.state, pollReads]

theorem loop_false_state (fuel r : Nat) (m : Machine) :
    ∃ n, (waitForSendDone.loop (fuel + 1) r false m).state =
      { m with reg0 := u32 (r &&& not32 SHOULD_SEND_DIN_MASK), polls := m.polls + 1 + n,
               trace := m.trace ++
                 (Effect.read SSD1306_DRIVER_S00_AXI_SLV_REG2_OFFSET (u32 (m.status m.polls)) ::
                  Effect.write SSD1306_DRIVER_S00_AXI_SLV_REG0_OFFSET
                    (u32 (r &&& not32 SHOULD_SEND_DIN_MASK)) ::
                  pollReads m.status (m.polls + 1) n) } := by
  rw [loop_succ_false]
  by_cases hb : isBusy (m.status m.polls)
  · obtain ⟨n, hn⟩ := loop_true_state fuel (r &&& not32 SHOULD_SEND_DIN_MASK)
      (m.polled.wroteControl (u32 (r &&& not32 SHOULD_SEND_DIN_MASK)))
    refine ⟨n, ?_⟩
    rw [if_pos hb, hn]
    simp [Machine.polled, Machine.wroteControl]
  · refine ⟨0, ?_⟩
    rw [if_neg hb]
    simp [Machine.polled, Machine.wroteControl, Run.state, pollReads]

theorem sendWithWait_state (fuel r din : Nat) (m : Machine) :
    ∃ n, (sendWithWait (fuel + 1) r din m).state =
      { m with reg0 := u32 (r &&& not32 SHOULD_SEND_DIN_MASK), reg1 := u32 din,
               polls := m.polls + 1 + n,
               trace := m.trace ++
                 (Effect.write SSD1306_DRIVER_S00_AXI_SLV_REG1_OFFSET (u32 din) ::
                  Effect.write SSD1306_DRIVER_S00_AXI_SLV_REG0_OFFSET
                    (u32 (r ||| SHOULD_SEND_DIN_MASK)) ::
                  Effect.read SSD1306_DRIVER_S00_AXI_SLV_REG2_OFFSET (u32 (m.status m.polls)) ::
                  Effect.write SSD1306_DRIVER_S00_AXI_SLV_REG0_OFFSET
                    (u32 (r &&& not32 SHOULD_SEND_DIN_MASK)) ::
                  pollReads m.status (m.polls + 1) n) } := by
  rw [sendWithWait_eq]
  obtain ⟨n, hn⟩ := loop_false_state fuel r
    ((m.wrotePayload (u32 din)).wroteControl (u32 (r ||| SHOULD_SEND_DIN_MASK)))
  refine ⟨n, ?_⟩
  rw [hn]
  simp [Machine.wrotePayload, Machine.wroteControl]

theorem mem_pollReads {status : Nat → Nat} {p n : Nat} {e : Effect}
    (h : e ∈ pollReads status p n) :
    ∃ v, e = Effect.read SSD1306_DRIVER_S00_AXI_SLV_REG2_OFFSET v := by
  induction n generalizing p with
  | zero => simp [pollReads] at h
  | succ n ih =>
    simp only [pollReads, List.mem_cons] at h
    rcases h with h | h
    · exact ⟨_, h⟩
    · exact ih h

/-! ## The power gate -/

theorem SendCall.run_unpowered (call : SendCall) (fuel : Nat) (m : Machine)
    (hoff : (u32 m.reg0).testBit 0 = false) : call.run fuel m = Run.done m.readControl := by
  have h := power_test_off hoff
  cases call <;>
    simp only [SendCall.run, send_Command, send_Command_u8, send_Command_u8_u8, send_u32s,
      send_u8s, send_u8, readReg0_eq, if_neg h]

/-- C1 (power-gate no-op).  Whichever of the six `send` overloads is called and
whatever its arguments and the poll budget, if the Control value read on
entry has bit 0 (power-enable) clear, the call returns and the machine is
unchanged except that the trace has one more entry, the read of Control: no
Payload or Control write, no Status read, Control as before. -/
theorem send_unpowered_noop (call : SendCall) (fuel : Nat) (m : Machine)
    (hoff : (u32 m.reg0).testBit 0 = false) :
    call.run fuel m = Run.done { m with
      trace := m.trace ++ [Effect.read SSD1306_DRIVER_S00_AXI_SLV_REG0_OFFSET (u32 m.reg0)] } := by
  have h := power_test_off hoff
  cases call <;>
    simp only [SendCall.run, send_Command, send_Command_u8, send_Command_u8_u8, send_u32s,
      send_u8s, send_u8, SSD1306_DRIVER_mReadReg, if_true, if_neg h]

/-- C1 at a concrete input: a column-address command sent to a display that is off. -/
theorem send_unpowered_noop_witness :
    (u32 offMachine.reg0).testBit 0 = false ∧
    (SendCall.commandArgs .ColumnAddress 0 127).run 0 offMachine = Run.done { offMachine with
      trace := offMachine.trace ++
        [Effect.read SSD1306_DRIVER_S00_AXI_SLV_REG0_OFFSET (u32 offMachine.reg0)] } :=
  ⟨by decide, send_unpowered_noop _ 0 offMachine (by decide)⟩

/-! ## The handshake -/

theorem u32_or_mask {r : Nat} (hr : r < 4294967296) (k : Nat) (hk : k < 4294967296) :
    u32 (r ||| k) = r ||| k :=
  u32_of_lt (Nat.or_lt_two_pow (n := 32) hr hk)

theorem u32_and_mask {r : Nat} (hr : r < 4294967296) (k : Nat) : u32 (r &&& k) = r &&& k :=
  u32_of_lt (lt_of_le_of_lt Nat.and_le_left hr)

/-- C2 (one-shot trigger ordering).  For every handshake `sendWithWait(r, din)`
on `u32` arguments, every Status oracle and every poll budget of at least
one, the effects of the handshake are exactly: write Payload := `din`; write
Control := `r` with bit 1 set; read Status; write Control := `r` with bit 1
clear; followed only by further Status reads.  Of the two Control values, the
first has the send-request bit set and the second has it clear. -/
theorem sendWithWait_one_shot (fuel r din : Nat) (m : Machine)
    (hr : r < 4294967296) (hdin : din < 4294967296) :
    ∃ later,
      (sendWithWait (fuel + 1) r din m).state.trace = m.trace ++
        [Effect.write SSD1306_DRIVER_S00_AXI_SLV_REG1_OFFSET din,
         Effect.write SSD1306_DRIVER_S00_AXI_SLV_REG0_OFFSET (r ||| SHOULD_SEND_DIN_MASK),
         Effect.read SSD1306_DRIVER_S00_AXI_SLV_REG2_OFFSET (u32 (m.status m.polls)),
         Effect.write SSD1306_DRIVER_S00_AXI_SLV_REG0_OFFSET (r &&& not32 SHOULD_SEND_DIN_MASK)]
        ++ later ∧
      (∀ e ∈ later, ∃ v, e = Effect.read SSD1306_DRIVER_S00_AXI_SLV_REG2_OFFSET v) ∧
      (r ||| SHOULD_SEND_DIN_MASK).testBit 1 = true ∧
      (r &&& not32 SHOULD_SEND_DIN_MASK).testBit 1 = false := by
  obtain ⟨n, hn⟩ := sendWithWait_state fuel r din m
  refine ⟨pollReads m.status (m.polls + 1) n, ?_, fun e he => mem_pollReads he, ?_, ?_⟩
  · rw [hn, u32_of_lt hdin, u32_or_mask hr _ (by decide), u32_and_mask hr]
    simp
  · rw [Nat.testBit_or]
    have : Nat.testBit SHOULD_SEND_DIN_MASK 1 = true := by decide
    simp [this]
  · rw [Nat.testBit_and]
    have : Nat.testBit (not32 SHOULD_SEND_DIN_MASK) 1 = false := by decide
    simp [this]

/-- C2 at a concrete input: the opcode 0x21 sent in 8-bit command mode to a
powered display that is busy for two polls. -/
theorem sendWithWait_one_shot_witness :
    (9 < 4294967296 ∧ 33 < 4294967296) ∧
    ∃ later,
      (sendWithWait (5 + 1) 9 33 onMachine).state.trace = onMachine.trace ++
        [Effect.write SSD1306_DRIVER_S00_AXI_SLV_REG1_OFFSET 33,
         Effect.write SSD1306_DRIVER_S00_AXI_SLV_REG0_OFFSET (9 ||| SHOULD_SEND_DIN_MASK),
         Effect.read SSD1306_DRIVER_S00_AXI_SLV_REG2_OFFSET
           (u32 (onMachine.status onMachine.polls)),
         Effect.write SSD1306_DRIVER_S00_AXI_SLV_REG0_OFFSET (9 &&& not32 SHOULD_SEND_DIN_MASK)]
        ++ later ∧
      (∀ e ∈ later, ∃ v, e = Effect.read SSD1306_DRIVER_S00_AXI_SLV_REG2_OFFSET v) ∧
      (9 ||| SHOULD_SEND_DIN_MASK).testBit 1 = true ∧
      (9 &&& not32 SHOULD_SEND_DIN_MASK).testBit 1 = false :=
  ⟨⟨by decide, by decide⟩, sendWithWait_one_shot 5 9 33 onMachine (by decide) (by decide)⟩

/-! ## Filters of the trace -/

theorem payloadWrites_append (a b : List Effect) :
    payloadWrites (a ++ b) = payloadWrites a ++ payloadWrites b := by
  induction a with
  | nil => rfl
  | cons e a ih =>
    cases e <;> simp [payloadWrites, ih]
    split <;> simp

theorem controlWrites_append (a b : List Effect) :
    controlWrites (a ++ b) = controlWrites a ++ controlWrites b := by
  induction a with
  | nil => rfl
  | cons e a ih =>
    cases e <;> simp [controlWrites, ih]
    split <;> simp

theorem timerPeriods_append (a b : List Effect) :
    timerPeriods (a ++ b) = timerPeriods a ++ timerPeriods b := by
  induction a with
  | nil => rfl
  | cons e a ih => cases e <;> simp [timerPeriods, ih]

theorem timerPeriods_of_regs {ops : List Effect} (h : ∀ e ∈ ops, e.isReg = true) :
    timerPeriods ops = [] := by
  induction ops with
  | nil => rfl
  | cons e ops ih =>
    have he := h e (List.mem_cons_self _ _)
    have hr := ih (fun x hx => h x (List.mem_cons_of_mem _ hx))
    cases e <;> simp_all [timerPeriods, Effect.isReg]

theorem payloadWrites_pollReads (status : Nat → Nat) (p n : Nat) :
    payloadWrites (pollReads status p n) = [] := by
  induction n generalizing p with
  | zero => rfl
  | succ n ih => simp [pollReads, payloadWrites, ih]

theorem controlWrites_pollReads (status : Nat → Nat) (p n : Nat) :
    controlWrites (pollReads status p n) = [] := by
  induction n generalizing p with
  | zero => rfl
  | succ n ih => simp [pollReads, controlWrites, ih]

theorem isReg_pollReads {status : Nat → Nat} {p n : Nat} {e : Effect}
    (h : e ∈ pollReads status p n) : e.isReg = true := by
  obtain ⟨v, rfl⟩ := mem_pollReads h
  rfl

/-! ## Sequencing -/

@[simp] theorem Run.bind_done {α : Type} (s : α) (f : α → Run α) :
    (Run.done s).bind f = f s := rfl

@[simp] theorem Run.bind_spinning {α : Type} (s : α) (f : α → Run α) :
    (Run.spinning s).bind f = Run.spinning s := rfl

@[simp] theorem Run.bind_outOfBounds {α : Type} (s : α) (f : α → Run α) :
    (Run.outOfBounds s).bind f = Run.outOfBounds s := rfl

theorem Run.bind_assoc {α : Type} (r : Run α) (f g : α → Run α) :
    (r.bind f).bind g = r.bind (fun s => (f s).bind g) := by
  cases r <;> rfl

theorem Run.bind_pure {α : Type} (r : Run α) : r.bind Run.done = r := by
  cases r <;> rfl

/-! ## Every handshake, whatever its outcome -/

theorem Machine.RegSteps.refl (m : Machine) : m.RegSteps m [] :=
  ⟨by simp, rfl, rfl, rfl, by simp⟩

theorem Machine.RegSteps.trans {m s t : Machine} {a b : List Effect}
    (h₁ : m.RegSteps s a) (h₂ : s.RegSteps t b) : m.RegSteps t (a ++ b) :=
  ⟨by rw [h₂.trace, h₁.trace, List.append_assoc], h₂.status.trans h₁.status,
    h₂.timerActive.trans h₁.timerActive, h₂.timerPeriod.trans h₁.timerPeriod,
    fun e he => (List.mem_append.1 he).elim (h₁.regs e) (h₂.regs e)⟩

theorem sendWithWait_ops (fuel r din : Nat) (m : Machine) :
    ∃ ops, m.RegSteps (sendWithWait fuel r din m).state ops ∧
      payloadWrites ops = [u32 din] ∧ HandshakeWrites r ops := by
  cases fuel with
  | zero =>
    refine ⟨[Effect.write SSD1306_DRIVER_S00_AXI_SLV_REG1_OFFSET (u32 din),
      Effect.write SSD1306_DRIVER_S00_AXI_SLV_REG0_OFFSET (u32 (r ||| SHOULD_SEND_DIN_MASK))],
      ⟨?_, rfl, rfl, rfl, ?_⟩, ?_, ?_⟩
    · simp [sendWithWait_zero, Run.state, Machine.wrotePayload, Machine.wroteControl]
    · simp [Effect.isReg]
    · simp [payloadWrites]
    · intro v hv
      simp [controlWrites] at hv
      exact Or.inl hv
  | succ fuel =>
    obtain ⟨n, hn⟩ := sendWithWait_state fuel r din m
    refine ⟨_, ⟨by rw [hn], by rw [hn], by rw [hn], by rw [hn], ?_⟩, ?_, ?_⟩
    · intro e he
      simp only [List.mem_cons] at he
      rcases he with rfl | rfl | rfl | rfl | he
      · rfl
      · rfl
      · rfl
      · rfl
      · exact isReg_pollReads he
    · simp [payloadWrites, payloadWrites_pollReads]
    · intro v hv
      simp [controlWrites, controlWrites_pollReads] at hv
      exact hv

theorem sendWithWait_not_outOfBounds (fuel r din : Nat) (m s : Machine) :
    sendWithWait fuel r din m ≠ Run.outOfBounds s := by
  rw [sendWithWait_eq]
  generalize (m.wrotePayload (u32 din)).wroteControl (u32 (r ||| SHOULD_SEND_DIN_MASK)) = m₁
  cases fuel with
  | zero => simp [loop_zero]
  | succ fuel =>
    rw [loop_succ_false]
    have key : ∀ (fuel r : Nat) (m : Machine),
        waitForSendDone.loop fuel r true m ≠ Run.outOfBounds s := by
      intro fuel
      induction fuel with
      | zero => intro r m; simp [loop_zero]
      | succ fuel ih =>
        intro r m
        rw [loop_succ_true]
        split
        · exact ih r _
        · simp
    split
    · exact key _ _ _
    · simp

theorem handshakes_ops (fuel r : Nat) (dins : List Nat) (m : Machine) :
    ∃ ops, m.RegSteps (handshakes fuel r dins m).state ops ∧ HandshakeWrites r ops ∧
      ((handshakes fuel r dins m).isDone = true → payloadWrites ops = dins.map u32) ∧
      (∀ s, handshakes fuel r dins m ≠ Run.outOfBounds s) := by
  induction dins generalizing m with
  | nil =>
    exact ⟨[], by simpa [handshakes, Run.state] using Machine.RegSteps.refl m,
      by intro v hv; simp [controlWrites] at hv, by simp [payloadWrites], by simp [handshakes]⟩
  | cons din dins ih =>
    obtain ⟨a, ha, hpa, hca⟩ := sendWithWait_ops fuel r din m
    have hno := sendWithWait_not_outOfBounds fuel r din m
    simp only [handshakes]
    cases hrun : sendWithWait fuel r din m with
    | done s =>
      rw [hrun] at ha
      obtain ⟨b, hb, hcb, hpb, hnb⟩ := ih s
      refine ⟨a ++ b, by simpa [Run.state] using ha.trans hb, ?_, ?_, by simpa using hnb⟩
      · intro v hv
        rw [controlWrites_append, List.mem_append] at hv
        exact hv.elim (hca v) (hcb v)
      · intro hd
        rw [payloadWrites_append, hpa, hpb (by simpa using hd)]
        simp
    | spinning s =>
      rw [hrun] at ha
      exact ⟨a, by simpa [Run.state] using ha, hca, by simp [Run.isDone], by simp⟩
    | outOfBounds s => exact absurd hrun (hno s)

/-! ## The overloads as runs of handshakes -/

theorem send_loop_eq (fuel r : Nat) (data : List Nat) (cast : Nat → Nat) :
    ∀ (n i : Nat) (m : Machine), i ≤ data.length →
      send.loop fuel r data cast n i m =
        (handshakes fuel r (((data.drop i).take n).map cast) m).bind
          (fun s => if i + n ≤ data.length then Run.done s else Run.outOfBounds s) := by
  intro n
  induction n with
  | zero =>
    intro i m hi
    simp [send.loop, handshakes, hi]
  | succ n ih =>
    intro i m hi
    rcases Nat.lt_or_ge i data.length with hlt | hge
    · have hd : data.drop i = data[i] :: data.drop (i + 1) := List.drop_eq_getElem_cons hlt
      have hc : (i + 1 + n ≤ data.length) ↔ (i + (n + 1) ≤ data.length) := by omega
      simp only [send.loop, List.getElem?_eq_getElem hlt, hd, List.take_succ_cons, List.map_cons,
        handshakes, Run.bind_assoc]
      congr 1
      funext s
      rw [ih (i + 1) s hlt]
      simp only [hc]
    · have hd : data.drop i = [] := List.drop_eq_nil_of_le hge
      have hn : ¬ (i + (n + 1) ≤ data.length) := by omega
      simp [send.loop, List.getElem?_eq_none hge, hd, handshakes, hn]

theorem SendCall.run_powered (call : SendCall) (fuel : Nat) (m : Machine)
    (hpow : (u32 m.reg0).testBit 0 = true) :
    call.run fuel m =
      ((handshakes fuel (call.control (u32 m.reg0)) call.wire m.readControl).bind
        (fun s => if call.InBounds then Run.done s else Run.outOfBounds s)).bind
        (fun s => Run.done (s.wroteControl (u32 m.reg0))) := by
  have h := power_test_on hpow
  cases call with
  | command cmd =>
    simp only [SendCall.run, send_Command, readReg0_eq, if_pos h, SendCall.control,
      SendCall.wire, SendCall.InBounds, handshakes, Run.bind_assoc, Run.bind_done, if_true,
      writeReg0_eq, u32_u32]
  | commandArg cmd arg =>
    simp only [SendCall.run, send_Command_u8, readReg0_eq, if_pos h, SendCall.control,
      SendCall.wire, SendCall.InBounds, handshakes, Run.bind_assoc, Run.bind_done, if_true,
      writeReg0_eq, u32_u32]
  | commandArgs cmd arg1 arg2 =>
    simp only [SendCall.run, send_Command_u8_u8, readReg0_eq, if_pos h, SendCall.control,
      SendCall.wire, SendCall.InBounds, handshakes, Run.bind_assoc, Run.bind_done, if_true,
      writeReg0_eq, u32_u32]
  | words data nels =>
    simp only [SendCall.run, send_u32s, readReg0_eq, if_pos h, SendCall.control,
      SendCall.wire, SendCall.InBounds, send_loop_eq _ _ _ _ _ _ _ (Nat.zero_le _),
      List.drop_zero, Nat.zero_add, writeReg0_eq, u32_u32]
  | bytes data nels =>
    simp only [SendCall.run, send_u8s, readReg0_eq, if_pos h, SendCall.control,
      SendCall.wire, SendCall.InBounds, send_loop_eq _ _ _ _ _ _ _ (Nat.zero_le _),
      List.drop_zero, Nat.zero_add, writeReg0_eq, u32_u32]
  | byte din is_din_data =>
    simp only [SendCall.run, send_u8, readReg0_eq, if_pos h, SendCall.control,
      SendCall.wire, SendCall.InBounds, handshakes, Run.bind_assoc, Run.bind_done, if_true,
      writeReg0_eq, u32_u32]

/-! ## Termination: an idle Status ends the wait -/

theorem Completes.bind {α : Type} {g : Nat → Run α} {h : Nat → α → Run α} {s t : α}
    (hg : Completes g s) (hh : Completes (fun fuel => h fuel s) t) :
    Completes (fun fuel => (g fuel).bind (h fuel)) t := by
  obtain ⟨a, ha⟩ := hg
  obtain ⟨b, hb⟩ := hh
  refine ⟨max a b, fun fuel hf => ?_⟩
  show (g fuel).bind (h fuel) = Run.done t
  rw [ha fuel (le_trans (le_max_left a b) hf)]
  exact hb fuel (le_trans (le_max_right a b) hf)

theorem Completes.pure {α : Type} (s : α) : Completes (fun _ => Run.done s) s :=
  ⟨0, fun _ _ => rfl⟩

theorem Completes.state {α : Type} {g : Nat → Run α} {s : α} (h : Completes g s) :
    ∃ fuel, g fuel = Run.done s := by
  obtain ⟨a, ha⟩ := h
  exact ⟨a, ha a le_rfl⟩

theorem loop_true_completes (k : Nat) :
    ∀ (r : Nat) (m : Machine), (∀ j, j < k → isBusy (m.status (m.polls + j))) →
      ¬ isBusy (m.status (m.polls + k)) →
      ∃ s, ∀ fuel, k + 1 ≤ fuel → waitForSendDone.loop fuel r true m = Run.done s := by
  induction k with
  | zero =>
    intro r m _ hidle
    refine ⟨m.polled, fun fuel hf => ?_⟩
    obtain ⟨f, rfl⟩ : ∃ f, fuel = f + 1 := ⟨fuel - 1, by omega⟩
    rw [loop_succ_true, if_neg (by simpa using hidle)]
  | succ k ih =>
    intro r m hbusy hidle
    have h0 : isBusy (m.status m.polls) := by simpa using hbusy 0 (Nat.succ_pos k)
    obtain ⟨s, hs⟩ := ih r m.polled
      (fun j hj => by
        have := hbusy (j + 1) (by omega)
        simpa [Machine.polled, Nat.add_assoc, Nat.add_comm 1 j] using this)
      (by simpa [Machine.polled, Nat.add_assoc, Nat.add_comm 1 k] using hidle)
    refine ⟨s, fun fuel hf => ?_⟩
    obtain ⟨f, rfl⟩ : ∃ f, fuel = f + 1 := ⟨fuel - 1, by omega⟩
    rw [loop_succ_true, if_pos h0]
    exact hs f (by omega)

theorem exists_first_idle {status : Nat → Nat} (h : EventuallyIdle status) (p : Nat) :
    ∃ k, (∀ j, j < k → isBusy (status (p + j))) ∧ ¬ isBusy (status (p + k)) := by
  classical
  refine ⟨Nat.find (h p), fun j hj => ?_, Nat.find_spec (h p)⟩
  exact not_not.1 (Nat.find_min (h p) hj)

theorem sendWithWait_completes (r din : Nat) (m : Machine) (h : EventuallyIdle m.status) :
    ∃ s, Completes (fun fuel => sendWithWait fuel r din m) s := by
  obtain ⟨k, hbusy, hidle⟩ := exists_first_idle h m.polls
  cases k with
  | zero =>
    refine ⟨(((m.wrotePayload (u32 din)).wroteControl
      (u32 (r ||| SHOULD_SEND_DIN_MASK))).polled).wroteControl
      (u32 (r &&& not32 SHOULD_SEND_DIN_MASK)), 1, fun fuel hf => ?_⟩
    obtain ⟨f, rfl⟩ : ∃ f, fuel = f + 1 := ⟨fuel - 1, by omega⟩
    show sendWithWait (f + 1) r din m = _
    rw [sendWithWait_eq, loop_succ_false]
    exact if_neg (by simpa using hidle)
  | succ k =>
    have h0 : isBusy (m.status m.polls) := by simpa using hbusy 0 (Nat.succ_pos k)
    obtain ⟨s, hs⟩ := loop_true_completes k (r &&& not32 SHOULD_SEND_DIN_MASK)
      ((((m.wrotePayload (u32 din)).wroteControl (u32 (r ||| SHOULD_SEND_DIN_MASK))).polled).wroteControl
        (u32 (r &&& not32 SHOULD_SEND_DIN_MASK)))
      (fun j hj => by
        have := hbusy (j + 1) (by omega)
        simpa [Machine.polled, Machine.wroteControl, Machine.wrotePayload, Nat.add_assoc,
          Nat.add_comm 1 j] using this)
      (by simpa [Machine.polled, Machine.wroteControl, Machine.wrotePayload, Nat.add_assoc,
          Nat.add_comm 1 k] using hidle)
    refine ⟨s, k + 2, fun fuel hf => ?_⟩
    obtain ⟨f, rfl⟩ : ∃ f, fuel = f + 1 := ⟨fuel - 1, by omega⟩
    show sendWithWait (f + 1) r din m = _
    rw [sendWithWait_eq, loop_succ_false]
    rw [if_pos (by simpa [Machine.wroteControl, Machine.wrotePayload] using h0)]
    exact hs f (by omega)

theorem handshakes_completes (r : Nat) (dins : List Nat) (m : Machine)
    (h : EventuallyIdle m.status) :
    ∃ s, Completes (fun fuel => handshakes fuel r dins m) s := by
  induction dins generalizing m with
  | nil => exact ⟨m, Completes.pure m⟩
  | cons din dins ih =>
    obtain ⟨s, hs⟩ := sendWithWait_completes r din m h
    obtain ⟨fuel, hf⟩ := hs.state
    obtain ⟨ops, hops, -, -⟩ := sendWithWait_ops fuel r din m
    rw [hf] at hops
    have hst : s.status = m.status := hops.status
    obtain ⟨t, ht⟩ := ih s (by rw [hst]; exact h)
    exact ⟨t, Completes.bind hs ht⟩

theorem SendCall.completes (call : SendCall) (m : Machine) (hin : call.InBounds)
    (h : EventuallyIdle m.status) :
    ∃ s, Completes (fun fuel => call.run fuel m) s := by
  by_cases hpow : (u32 m.reg0).testBit 0 = true
  · obtain ⟨s, hs⟩ := handshakes_completes (call.control (u32 m.reg0)) call.wire m.readControl h
    refine ⟨s.wroteControl (u32 m.reg0), ?_⟩
    obtain ⟨a, ha⟩ := hs
    refine ⟨a, fun fuel hf => ?_⟩
    have ha' : handshakes fuel (call.control (u32 m.reg0)) call.wire m.readControl =
        Run.done s := ha fuel hf
    show call.run fuel m = _
    rw [SendCall.run_powered call fuel m hpow, ha']
    simp [hin]
  · exact ⟨_, 0, fun fuel _ => SendCall.run_unpowered call fuel m (by simpa using hpow)⟩

/-! ## Bits of the control values -/

theorem testBit_mask (k i : Nat) : (1 <<< k).testBit i = decide (k = i) := by
  rw [Nat.one_shiftLeft, Nat.testBit_two_pow]

theorem testBit_not32_mask (k i : Nat) (hk : k < 32) :
    (not32 (1 <<< k)).testBit i = (decide (i < 32) && !decide (k = i)) := by
  have hlt : 1 <<< k < 4294967296 := by
    rw [Nat.one_shiftLeft]
    exact Nat.pow_lt_pow_right (by decide : 1 < 2) hk
  have h : not32 (1 <<< k) = 2 ^ 32 - (1 <<< k + 1) := by
    unfold not32
    rw [Nat.mod_eq_of_lt hlt]
    omega
  rw [h, Nat.testBit_two_pow_sub_succ hlt, testBit_mask]

theorem testBit_u32_high {c i : Nat} (hc : c < 4294967296) (hi : 32 ≤ i) :
    c.testBit i = false :=
  Nat.testBit_lt_two_pow (lt_of_lt_of_le hc (Nat.pow_le_pow_right (by decide : 2 > 0) hi))

theorem control_lt (call : SendCall) {c : Nat} (hc : c < 4294967296) :
    call.control c < 4294967296 := by
  have h8 : c ||| IS_DIN_U8_MASK < 4294967296 := Nat.or_lt_two_pow (n := 32) hc (by decide)
  have h4 : c ||| IS_DIN_DATA_MASK < 4294967296 := Nat.or_lt_two_pow (n := 32) hc (by decide)
  cases call with
  | command _ => exact lt_of_le_of_lt Nat.and_le_left h8
  | commandArg _ _ => exact lt_of_le_of_lt Nat.and_le_left h8
  | commandArgs _ _ _ => exact lt_of_le_of_lt Nat.and_le_left h8
  | words _ _ => exact lt_of_le_of_lt Nat.and_le_left h4
  | bytes _ _ => exact Nat.or_lt_two_pow (n := 32) h4 (by decide)
  | byte _ b =>
    cases b
    · exact lt_of_le_of_lt Nat.and_le_left h8
    · exact Nat.or_lt_two_pow (n := 32) h8 (by decide)

theorem control_testBit (call : SendCall) {c : Nat} (hc : c < 4294967296) (i : Nat) :
    (call.control c).testBit i =
      if i = 2 then call.dataMode else if i = 3 then call.width8 else c.testBit i := by
  have e2 : decide (2 = i) = decide (i = 2) := by simp [eq_comm]
  have e3 : decide (3 = i) = decide (i = 3) := by simp [eq_comm]
  have n2 := testBit_not32_mask 2 i (by decide)
  have n3 := testBit_not32_mask 3 i (by decide)
  have m2 := testBit_mask 2 i
  have m3 := testBit_mask 3 i
  rw [e2] at n2 m2
  rw [e3] at n3 m3
  have hhigh : ¬ i < 32 → c.testBit i = false := fun h => testBit_u32_high hc (by omega)
  have key : (call.control c).testBit i =
      ((c.testBit i && !decide (i = 2) && !decide (i = 3)) ||
        (decide (i = 2) && call.dataMode) || (decide (i = 3) && call.width8)) := by
    by_cases hi : i < 32
    · cases call with
      | byte din b =>
        cases b <;>
          simp only [SendCall.control, SendCall.dataMode, SendCall.width8, Nat.testBit_or,
            Nat.testBit_and, n2, n3, m2, m3, if_true, Bool.false_eq_true, if_false] <;>
          cases c.testBit i <;> by_cases h2 : i = 2 <;> by_cases h3 : i = 3 <;>
          simp [h2, h3, hi]
      | _ =>
        simp only [SendCall.control, SendCall.dataMode, SendCall.width8, Nat.testBit_or,
          Nat.testBit_and, n2, n3, m2, m3]
        cases c.testBit i <;> by_cases h2 : i = 2 <;> by_cases h3 : i = 3 <;>
          simp [h2, h3, hi]
    · have h2 : ¬ i = 2 := by omega
      have h3 : ¬ i = 3 := by omega
      cases call with
      | byte din b =>
        cases b <;>
          simp [SendCall.control, SendCall.dataMode, SendCall.width8, Nat.testBit_or,
            Nat.testBit_and, n2, n3, m2, m3, hhigh hi, h2, h3, hi]
      | _ =>
        simp [SendCall.control, SendCall.dataMode, SendCall.width8, Nat.testBit_or,
          Nat.testBit_and, n2, n3, m2, m3, hhigh hi, h2, h3, hi]
  rw [key]
  by_cases h2 : i = 2
  · simp [h2]
  · by_cases h3 : i = 3
    · simp [h3]
    · simp [h2, h3]

/-! ## A powered call, whatever its outcome -/

theorem SendCall.run_powered_ops (call : SendCall) (fuel : Nat) (m : Machine)
    (hpow : (u32 m.reg0).testBit 0 = true) :
    ∃ hs s, m.readControl.RegSteps s hs ∧ HandshakeWrites (call.control (u32 m.reg0)) hs ∧
      ((call.run fuel m = Run.done (s.wroteControl (u32 m.reg0)) ∧
          payloadWrites hs = call.wire.map u32 ∧ call.InBounds) ∨
        ((call.run fuel m).isDone = false ∧ (call.run fuel m).state = s)) := by
  obtain ⟨hs, hsteps, hwr, hpay, hno⟩ :=
    handshakes_ops fuel (call.control (u32 m.reg0)) call.wire m.readControl
  rw [SendCall.run_powered call fuel m hpow]
  cases hrun : handshakes fuel (call.control (u32 m.reg0)) call.wire m.readControl with
  | done s =>
    rw [hrun] at hsteps hpay
    by_cases hin : call.InBounds
    · exact ⟨hs, s, hsteps, hwr, Or.inl ⟨by simp [hin], hpay rfl, hin⟩⟩
    · exact ⟨hs, s, hsteps, hwr, Or.inr (by simp [hin, Run.isDone, Run.state])⟩
  | spinning s =>
    rw [hrun] at hsteps
    exact ⟨hs, s, hsteps, hwr, Or.inr (by simp [Run.isDone, Run.state])⟩
  | outOfBounds s => exact absurd hrun (hno s)

theorem mem_controlWrites {ops : List Effect} {v : Nat}
    (h : Effect.write SSD1306_DRIVER_S00_AXI_SLV_REG0_OFFSET v ∈ ops) : v ∈ controlWrites ops := by
  induction ops with
  | nil => simp at h
  | cons e ops ih =>
    rcases List.mem_cons.1 h with rfl | h
    · simp [controlWrites]
    · have := ih h
      cases e <;> simp only [controlWrites] <;> try exact this
      split
      · exact List.mem_cons_of_mem _ this
      · exact this

theorem opcode_lt (cmd : Command) : cmd.opcode < 256 := by
  cases cmd <;> decide

theorem wire_eq_units {call : SendCall} (h : call.WellTyped) : call.wire.map u32 = call.units := by
  have h8 : ∀ x, x < 256 → u32 (u8 x) = x := fun x hx => by
    rw [u8_of_lt hx, u32_of_lt (by omega)]
  have hop : ∀ cmd : Command, u32 cmd.opcode = cmd.opcode := fun cmd =>
    u32_of_lt (lt_trans (opcode_lt cmd) (by decide))
  cases call with
  | command cmd => simp [SendCall.wire, SendCall.units, hop]
  | commandArg cmd arg => simp [SendCall.wire, SendCall.units, hop, h8 arg h]
  | commandArgs cmd arg1 arg2 =>
    simp [SendCall.wire, SendCall.units, hop, h8 arg1 h.1, h8 arg2 h.2]
  | words data nels =>
    simp only [SendCall.wire, SendCall.units, List.map_map]
    rw [List.map_congr_left (g := id) (fun x hx => by
      have := h.1 x (List.mem_of_mem_take hx)
      simp [u32_of_lt this])]
    simp
  | bytes data nels =>
    simp only [SendCall.wire, SendCall.units, List.map_map]
    rw [List.map_congr_left (g := id) (fun x hx => by
      simpa using h8 x (h.1 x (List.mem_of_mem_take hx)))]
    simp
  | byte din b => simp [SendCall.wire, SendCall.units, h8 din h]

theorem inBounds_of_wellTyped {call : SendCall} (h : call.WellTyped) : call.InBounds := by
  cases call with
  | words data nels =>
    have := h.2
    simp only [SendCall.InBounds]
    omega
  | bytes data nels =>
    have := h.2
    simp only [SendCall.InBounds]
    omega
  | _ => trivial

/-! ## Payload round trip -/

theorem handshakes_done_shape (fuel r : Nat) (hr : r < 4294967296) (dins : List Nat)
    (m s : Machine) (h : handshakes fuel r dins m = Run.done s) :
    ∃ ops, s.trace = m.trace ++ ops ∧ Handshakes r (dins.map u32) ops := by
  induction dins generalizing m with
  | nil =>
    simp only [handshakes] at h
    cases h
    exact ⟨[], by simp, rfl⟩
  | cons din dins ih =>
    simp only [handshakes] at h
    cases hrun : sendWithWait fuel r din m with
    | done s₁ =>
      rw [hrun, Run.bind_done] at h
      obtain ⟨rest, hrest, hshape⟩ := ih s₁ h
      cases fuel with
      | zero => simp [sendWithWait_zero] at hrun
      | succ fuel =>
        obtain ⟨n, hn⟩ := sendWithWait_state fuel r din m
        rw [hrun] at hn
        simp only [Run.state] at hn
        refine ⟨_, ?_, u32 (m.status m.polls), pollReads m.status (m.polls + 1) n, rest, rfl,
          fun e he => mem_pollReads he, hshape⟩
        rw [hrest, hn, u32_or_mask hr _ (by decide), u32_and_mask hr]
        simp
    | spinning s₁ =>
      rw [hrun] at h
      simp at h
    | outOfBounds s₁ =>
      rw [hrun] at h
      simp at h

theorem payloadWrites_handshakes {r : Nat} {dins : List Nat} {ops : List Effect}
    (h : Handshakes r dins ops) : payloadWrites ops = dins := by
  induction dins generalizing ops with
  | nil =>
    simp only [Handshakes] at h
    rw [h]
    rfl
  | cons din dins ih =>
    obtain ⟨status, later, rest, rfl, hlater, hrest⟩ := h
    have hl : payloadWrites later = [] := by
      clear hrest
      induction later with
      | nil => rfl
      | cons e later ihl =>
        obtain ⟨v, rfl⟩ := hlater e (List.mem_cons_self _ _)
        simpa [payloadWrites] using ihl (fun x hx => hlater x (List.mem_cons_of_mem _ hx))
    rw [payloadWrites_append, payloadWrites_append, hl, ih hrest]
    simp [payloadWrites]

theorem SendCall.run_powered_done (call : SendCall) (fuel : Nat) (m m' : Machine)
    (hpow : (u32 m.reg0).testBit 0 = true) (h : call.run fuel m = Run.done m') :
    ∃ s, handshakes fuel (call.control (u32 m.reg0)) call.wire m.readControl = Run.done s ∧
      call.InBounds ∧ m' = s.wroteControl (u32 m.reg0) := by
  rw [SendCall.run_powered call fuel m hpow] at h
  cases hrun : handshakes fuel (call.control (u32 m.reg0)) call.wire m.readControl with
  | done s =>
    rw [hrun, Run.bind_done] at h
    by_cases hin : call.InBounds
    · rw [if_pos hin, Run.bind_done] at h
      exact ⟨s, rfl, hin, (Run.done.inj h).symm⟩
    · rw [if_neg hin] at h
      simp at h
  | spinning s =>
    rw [hrun] at h
    simp at h
  | outOfBounds s =>
    rw [hrun] at h
    simp at h

/-- C3 (payload round trip).  For every `send` call made while powered (bit 0
of the Control value read on entry is set) with arguments that fit their C++
types and a count within the buffer, against a Status that eventually reads
not-busy: with any large enough poll budget the call returns, and the values
it wrote to the Payload register are exactly the units the caller supplied,
in call or index order: `[opcode]`, `[opcode, arg]`, `[opcode, arg1, arg2]`,
`data[0 .. count-1]` for both buffer overloads, `[din]` for a single byte.
Between the read of Control and the write that restores it, the effects of
the call are complete handshakes, one per unit in that order, and nothing
else. -/
theorem send_payload_roundtrip (call : SendCall) (m : Machine)
    (hpow : (u32 m.reg0).testBit 0 = true) (hty : call.WellTyped)
    (hidle : EventuallyIdle m.status) :
    ∃ m', Completes (fun fuel => call.run fuel m) m' ∧
      payloadWrites (m'.trace.drop m.trace.length) = call.units ∧
      ∃ r hs, Handshakes r call.units hs ∧
        m'.trace = m.trace ++
          (Effect.read SSD1306_DRIVER_S00_AXI_SLV_REG0_OFFSET (u32 m.reg0) :: hs ++
            [Effect.write SSD1306_DRIVER_S00_AXI_SLV_REG0_OFFSET (u32 m.reg0)]) := by
  obtain ⟨m', hm'⟩ := SendCall.completes call m (inBounds_of_wellTyped hty) hidle
  obtain ⟨fuel, hf⟩ := hm'.state
  obtain ⟨s, hs, -, rfl⟩ := SendCall.run_powered_done call fuel m m' hpow hf
  obtain ⟨ops, hops, hshape⟩ := handshakes_done_shape fuel _ (control_lt call (u32_lt m.reg0))
    call.wire m.readControl s hs
  rw [wire_eq_units hty] at hshape
  have htr : (s.wroteControl (u32 m.reg0)).trace = m.trace ++
      (Effect.read SSD1306_DRIVER_S00_AXI_SLV_REG0_OFFSET (u32 m.reg0) :: ops ++
        [Effect.write SSD1306_DRIVER_S00_AXI_SLV_REG0_OFFSET (u32 m.reg0)]) := by
    simp [Machine.wroteControl, hops, Machine.readControl]
  refine ⟨_, hm', ?_, _, ops, hshape, htr⟩
  rw [htr, List.drop_left]
  simp [payloadWrites, payloadWrites_append, payloadWrites_handshakes hshape]

theorem onMachine_idle : EventuallyIdle onMachine.status := fun n =>
  ⟨2 * n + 2, by
    have h : (n + (2 * n + 2)) % 3 = 2 := by omega
    simp [isBusy, onMachine, h, u32]⟩

/-- C3 at a concrete input: `send(ColumnAddress, 0, 127)` on a powered display
that is busy for two polls of every handshake. -/
theorem send_payload_roundtrip_witness :
    ((u32 onMachine.reg0).testBit 0 = true ∧
      (SendCall.commandArgs .ColumnAddress 0 127).WellTyped ∧
      EventuallyIdle onMachine.status) ∧
    ∃ m', Completes (fun fuel => (SendCall.commandArgs .ColumnAddress 0 127).run fuel onMachine) m' ∧
      payloadWrites (m'.trace.drop onMachine.trace.length) = [0x21, 0, 127] ∧
      ∃ r hs, Handshakes r [0x21, 0, 127] hs ∧
        m'.trace = onMachine.trace ++
          (Effect.read SSD1306_DRIVER_S00_AXI_SLV_REG0_OFFSET (u32 onMachine.reg0) :: hs ++
            [Effect.write SSD1306_DRIVER_S00_AXI_SLV_REG0_OFFSET (u32 onMachine.reg0)]) :=
  ⟨⟨by decide, by decide, onMachine_idle⟩,
    send_payload_roundtrip (SendCall.commandArgs .ColumnAddress 0 127) onMachine
      (by decide) (by decide) onMachine_idle⟩

/-! ## Mode bits and restoring Control -/

theorem handshake_write_bits (call : SendCall) {c v : Nat} (hc : c < 4294967296)
    (hv : v = u32 (call.control c ||| SHOULD_SEND_DIN_MASK) ∨
      v = u32 (call.control c &&& not32 SHOULD_SEND_DIN_MASK)) :
    v.testBit 2 = call.dataMode ∧ v.testBit 3 = call.width8 ∧
      ∀ i, i ≠ 1 → i ≠ 2 → i ≠ 3 → v.testBit i = c.testBit i := by
  have hR := control_lt call hc
  have hbit := control_testBit call hc
  have hm : ∀ i, Nat.testBit SHOULD_SEND_DIN_MASK i = decide (1 = i) := testBit_mask 1
  have hn : ∀ i, (not32 SHOULD_SEND_DIN_MASK).testBit i = (decide (i < 32) && !decide (1 = i)) :=
    fun i => testBit_not32_mask 1 i (by decide)
  rcases hv with rfl | rfl
  · rw [u32_or_mask hR _ (by decide)]
    refine ⟨?_, ?_, fun i h1 h2 h3 => ?_⟩
    · simp [Nat.testBit_or, hbit, hm]
    · simp [Nat.testBit_or, hbit, hm]
    · have : ¬ 1 = i := fun h => h1 h.symm
      simp [Nat.testBit_or, hbit, hm, h2, h3, this]
  · rw [u32_and_mask hR]
    refine ⟨?_, ?_, fun i h1 h2 h3 => ?_⟩
    · simp [Nat.testBit_and, hbit, hn]
    · simp [Nat.testBit_and, hbit, hn]
    · have : ¬ 1 = i := fun h => h1 h.symm
      by_cases hi : i < 32
      · simp [Nat.testBit_and, hbit, hn, h2, h3, this, hi]
      · have hz : c.testBit i = false := testBit_u32_high hc (Nat.le_of_not_lt hi)
        simp [Nat.testBit_and, hbit, hn, h2, h3, this, hi, hz]

/-- C4 (mode bits match the payload).  For every powered `send` call, every
poll budget and every Status behaviour, the effects of the call are: the read
of Control (value `c`), then the handshakes `hs`, then, when the call returns,
the write of `c` back to Control.  Every Control write inside the handshakes
has bit 2 (data) and bit 3 (8-bit width) as the overload fixes them: commands
`0, 1`; `u32` buffer `1, 0`; `u8` buffer `1, 1`; single byte `is_din_data, 1`.
Every bit other than bits 1, 2 and 3 equals that bit of `c`. -/
theorem send_mode_bits (call : SendCall) (fuel : Nat) (m : Machine)
    (hpow : (u32 m.reg0).testBit 0 = true) :
    ∃ hs, (call.run fuel m).state.trace = m.trace ++
        (Effect.read SSD1306_DRIVER_S00_AXI_SLV_REG0_OFFSET (u32 m.reg0) ::
          (hs ++ if (call.run fuel m).isDone then
            [Effect.write SSD1306_DRIVER_S00_AXI_SLV_REG0_OFFSET (u32 m.reg0)] else [])) ∧
      ∀ v, Effect.write SSD1306_DRIVER_S00_AXI_SLV_REG0_OFFSET v ∈ hs →
        v.testBit 2 = call.dataMode ∧ v.testBit 3 = call.width8 ∧
          ∀ i, i ≠ 1 → i ≠ 2 → i ≠ 3 → v.testBit i = (u32 m.reg0).testBit i := by
  obtain ⟨hs, s, hsteps, hwr, h | h⟩ := SendCall.run_powered_ops call fuel m hpow
  · refine ⟨hs, ?_, fun v hv =>
      handshake_write_bits call (u32_lt _) (hwr v (mem_controlWrites hv))⟩
    rw [h.1]
    simp [Run.state, Run.isDone, Machine.wroteControl, hsteps.trace, Machine.readControl]
  · refine ⟨hs, ?_, fun v hv =>
      handshake_write_bits call (u32_lt _) (hwr v (mem_controlWrites hv))⟩
    rw [h.1, h.2]
    simp [hsteps.trace, Machine.readControl]

/-- C4 at a concrete input: a `u32` buffer of three words sent to a powered
display with a budget of ten polls per handshake. -/
theorem send_mode_bits_witness :
    (u32 onMachine.reg0).testBit 0 = true ∧
    ∃ hs, ((SendCall.words [7, 8, 9] 3).run 10 onMachine).state.trace = onMachine.trace ++
        (Effect.read SSD1306_DRIVER_S00_AXI_SLV_REG0_OFFSET (u32 onMachine.reg0) ::
          (hs ++ if ((SendCall.words [7, 8, 9] 3).run 10 onMachine).isDone then
            [Effect.write SSD1306_DRIVER_S00_AXI_SLV_REG0_OFFSET (u32 onMachine.reg0)] else [])) ∧
      ∀ v, Effect.write SSD1306_DRIVER_S00_AXI_SLV_REG0_OFFSET v ∈ hs →
        v.testBit 2 = (SendCall.words [7, 8, 9] 3).dataMode ∧
        v.testBit 3 = (SendCall.words [7, 8, 9] 3).width8 ∧
          ∀ i, i ≠ 1 → i ≠ 2 → i ≠ 3 → v.testBit i = (u32 onMachine.reg0).testBit i :=
  ⟨by decide, send_mode_bits (SendCall.words [7, 8, 9] 3) 10 onMachine (by decide)⟩

/-- C5 (Control is restored).  For every `send` overload called while powered,
with any arguments and any Status behaviour: whenever the call returns, its
effects start with the read of Control, giving `c`, and end with the write of
exactly `c` to Control, so Control holds `c` afterwards and a read of
Control returns what it returned before the call.  The call does return, for
any large enough poll budget, when the count is within the buffer and Status
eventually reads not-busy. -/
theorem send_restores_control (call : SendCall) (m : Machine)
    (hpow : (u32 m.reg0).testBit 0 = true) :
    (∀ fuel m', call.run fuel m = Run.done m' →
      (∃ ops, m'.trace = m.trace ++
        (Effect.read SSD1306_DRIVER_S00_AXI_SLV_REG0_OFFSET (u32 m.reg0) :: ops) ++
          [Effect.write SSD1306_DRIVER_S00_AXI_SLV_REG0_OFFSET (u32 m.reg0)]) ∧
      m'.trace.getLast? =
        some (Effect.write SSD1306_DRIVER_S00_AXI_SLV_REG0_OFFSET (u32 m.reg0)) ∧
      m'.reg0 = u32 m.reg0 ∧
      (SSD1306_DRIVER_mReadReg SSD1306_DRIVER_S00_AXI_SLV_REG0_OFFSET m').1 =
        (SSD1306_DRIVER_mReadReg SSD1306_DRIVER_S00_AXI_SLV_REG0_OFFSET m).1) ∧
    (call.InBounds → EventuallyIdle m.status →
      ∃ m', Completes (fun fuel => call.run fuel m) m') := by
  refine ⟨fun fuel m' hrun => ?_, fun hin hidle => SendCall.completes call m hin hidle⟩
  obtain ⟨hs, s, hsteps, -, h | h⟩ := SendCall.run_powered_ops call fuel m hpow
  · have hm : m' = s.wroteControl (u32 m.reg0) := by
      have := h.1
      rw [hrun] at this
      exact Run.done.inj this
    have htr : m'.trace = m.trace ++
        (Effect.read SSD1306_DRIVER_S00_AXI_SLV_REG0_OFFSET (u32 m.reg0) :: hs) ++
          [Effect.write SSD1306_DRIVER_S00_AXI_SLV_REG0_OFFSET (u32 m.reg0)] := by
      rw [hm]
      simp [Machine.wroteControl, hsteps.trace, Machine.readControl]
    refine ⟨⟨hs, htr⟩, ?_, ?_, ?_⟩
    · rw [htr, List.getLast?_append]
      simp
    · rw [hm]
      rfl
    · rw [hm]
      simp [readReg0_eq, Machine.wroteControl, u32_u32]
  · rw [hrun] at h
    simp [Run.isDone] at h

/-- C5 at a concrete input: a `u8` buffer sent with a count of 0 to a powered
display returns with Control restored. -/
theorem send_restores_control_witness :
    (u32 onMachine.reg0).testBit 0 = true ∧
    ((∀ fuel m', (SendCall.bytes [1, 2] 0).run fuel onMachine = Run.done m' →
      (∃ ops, m'.trace = onMachine.trace ++
        (Effect.read SSD1306_DRIVER_S00_AXI_SLV_REG0_OFFSET (u32 onMachine.reg0) :: ops) ++
          [Effect.write SSD1306_DRIVER_S00_AXI_SLV_REG0_OFFSET (u32 onMachine.reg0)]) ∧
      m'.trace.getLast? =
        some (Effect.write SSD1306_DRIVER_S00_AXI_SLV_REG0_OFFSET (u32 onMachine.reg0)) ∧
      m'.reg0 = u32 onMachine.reg0 ∧
      (SSD1306_DRIVER_mReadReg SSD1306_DRIVER_S00_AXI_SLV_REG0_OFFSET m').1 =
        (SSD1306_DRIVER_mReadReg SSD1306_DRIVER_S00_AXI_SLV_REG0_OFFSET onMachine).1) ∧
    ((SendCall.bytes [1, 2] 0).InBounds → EventuallyIdle onMachine.status →
      ∃ m', Completes (fun fuel => (SendCall.bytes [1, 2] 0).run fuel onMachine) m')) :=
  ⟨by decide, send_restores_control (SendCall.bytes [1, 2] 0) onMachine (by decide)⟩

/-! ## Driver calls touch only the registers -/

theorem SendCall.run_regSteps (call : SendCall) (fuel : Nat) (m : Machine) :
    ∃ ops, m.RegSteps (call.run fuel m).state ops := by
  have hread : m.RegSteps m.readControl
      [Effect.read SSD1306_DRIVER_S00_AXI_SLV_REG0_OFFSET (u32 m.reg0)] :=
    ⟨rfl, rfl, rfl, rfl, by simp [Effect.isReg]⟩
  by_cases hpow : (u32 m.reg0).testBit 0 = true
  · obtain ⟨hs, s, hsteps, -, h | h⟩ := SendCall.run_powered_ops call fuel m hpow
    · have hw : s.RegSteps (s.wroteControl (u32 m.reg0))
          [Effect.write SSD1306_DRIVER_S00_AXI_SLV_REG0_OFFSET (u32 m.reg0)] :=
        ⟨rfl, rfl, rfl, rfl, by simp [Effect.isReg]⟩
      have := (hread.trans hsteps).trans hw
      exact ⟨_, by rw [h.1]; exact this⟩
    · have := hread.trans hsteps
      exact ⟨_, by rw [h.2]; exact this⟩
  · exact ⟨_, by rw [SendCall.run_unpowered call fuel m (by simpa using hpow)]; exact hread⟩

/-! ## The timer callback -/

theorem showFrame_outcome (port : Port) (fuel : Nat) (app : Application) :
    (∃ animation frame m₁ m₂ m₃,
        app.animations[app.animationIdx]? = some animation ∧
        animation.frames[app.frameIdx]? = some frame ∧
        send_Command_u8_u8 fuel .ColumnAddress 0 127 app.machine = Run.done m₁ ∧
        send_Command_u8_u8 fuel .PageAddress 0 3 m₁ = Run.done m₂ ∧
        send_u32s fuel frame.buffer 128 m₂ = Run.done m₃ ∧
        showFrame port fuel app = Run.done
          (storeFrameIdx (showFrame.next animation.framesNb app.frameIdx)
            { app with machine :=
                (xTimerChangePeriod (showFrame.period port (showFrame.delay port frame.delay))
                  m₃) })) ∨
      ((showFrame port fuel app).isDone = false ∧
        ∃ ops m', app.machine.RegSteps m' ops ∧
          (showFrame port fuel app).state = { app with machine := m' }) := by
  have r1 := SendCall.run_regSteps (.commandArgs .ColumnAddress 0 127) fuel app.machine
  unfold showFrame
  cases hanim : app.animations[app.animationIdx]? with
  | none =>
    exact Or.inr ⟨rfl, [], app.machine, Machine.RegSteps.refl _, rfl⟩
  | some animation =>
    obtain ⟨o1, h1⟩ := r1
    simp only [SendCall.run] at h1
    simp only [onDisplay]
    cases hs1 : send_Command_u8_u8 fuel .ColumnAddress 0 127 app.machine with
    | done m₁ =>
      rw [hs1] at h1
      obtain ⟨o2, h2⟩ := SendCall.run_regSteps (.commandArgs .PageAddress 0 3) fuel m₁
      simp only [SendCall.run] at h2
      simp only [Run.map, Run.bind_done]
      cases hs2 : send_Command_u8_u8 fuel .PageAddress 0 3 m₁ with
      | done m₂ =>
        rw [hs2] at h2
        simp only [Run.map, Run.bind_done]
        cases hframe : animation.frames[app.frameIdx]? with
        | none =>
          obtain ⟨o3, h3⟩ := SendCall.run_regSteps (.words [] 128) fuel m₂
          simp only [SendCall.run] at h3
          simp only [Option.map_none', Option.getD_none]
          cases hs3 : send_u32s fuel [] 128 m₂ with
          | done m₃ =>
            rw [hs3] at h3
            exact Or.inr ⟨rfl, _, m₃, (h1.trans h2).trans h3, rfl⟩
          | spinning m₃ =>
            rw [hs3] at h3
            exact Or.inr ⟨rfl, _, m₃, (h1.trans h2).trans h3, rfl⟩
          | outOfBounds m₃ =>
            rw [hs3] at h3
            exact Or.inr ⟨rfl, _, m₃, (h1.trans h2).trans h3, rfl⟩
        | some frame =>
          obtain ⟨o3, h3⟩ := SendCall.run_regSteps (.words frame.buffer 128) fuel m₂
          simp only [SendCall.run] at h3
          simp only [Option.map_some', Option.getD_some]
          cases hs3 : send_u32s fuel frame.buffer 128 m₂ with
          | done m₃ =>
            exact Or.inl ⟨animation, frame, m₁, m₂, m₃, rfl, hframe, rfl, hs2, hs3, rfl⟩
          | spinning m₃ =>
            rw [hs3] at h3
            exact Or.inr ⟨rfl, _, m₃, (h1.trans h2).trans h3, rfl⟩
          | outOfBounds m₃ =>
            rw [hs3] at h3
            exact Or.inr ⟨rfl, _, m₃, (h1.trans h2).trans h3, rfl⟩
      | spinning m₂ =>
        rw [hs2] at h2
        exact Or.inr ⟨rfl, _, m₂, h1.trans h2, rfl⟩
      | outOfBounds m₂ =>
        rw [hs2] at h2
        exact Or.inr ⟨rfl, _, m₂, h1.trans h2, rfl⟩
    | spinning m₁ =>
      rw [hs1] at h1
      exact Or.inr ⟨rfl, _, m₁, h1, rfl⟩
    | outOfBounds m₁ =>
      rw [hs1] at h1
      exact Or.inr ⟨rfl, _, m₁, h1, rfl⟩

/-! ## The player task -/

/-- C6, evaluated at the failing input.  With four animations and animation 0
playing, a received index of 4 (equal to `animationsNb`) passes the check
`animation_idx > animationsNb`: the timer is stopped, the Playback State
becomes (4, 0) and the timer is armed again.  The next timer callback then
indexes `animations[4]`, past the end of the array.  An index of 5 is
rejected with the message and changes nothing else. -/
theorem selection_equal_to_count_accepted :
    playingApp.animationsNb = 4 ∧ playingApp.animations.length = 4 ∧
    (playAnimationFn.step (some 4) playingApp).animationIdx = 4 ∧
    (playAnimationFn.step (some 4) playingApp).frameIdx = 0 ∧
    (playAnimationFn.step (some 4) playingApp).machine.trace =
      playingApp.machine.trace ++
        [Effect.timerStop, Effect.storeAnimationIdx 4, Effect.storeFrameIdx 0,
         Effect.timerChangePeriod 1] ∧
    (∀ port fuel, showFrame port fuel (playAnimationFn.step (some 4) playingApp) =
      Run.outOfBounds (playAnimationFn.step (some 4) playingApp)) ∧
    (playAnimationFn.step (some 5) playingApp).animationIdx = 0 ∧
    (playAnimationFn.step (some 5) playingApp).frameIdx = 2 ∧
    (playAnimationFn.step (some 5) playingApp).machine.trace =
      playingApp.machine.trace ++ [Effect.print] :=
  ⟨rfl, rfl, rfl, rfl, rfl, fun _ _ => rfl, rfl, rfl, rfl⟩

/-- C10 (player step).  On a receive timeout, and on receipt of the index
that is playing, the player changes nothing.  On receipt of an in-range index
`i` different from the current one, the player stops the timer if and only if
it is active, which leaves the timer dormant (state `s₁`); then stores
`animationIdx := i` and `frameIdx := 0` with the timer still dormant (state
`s₂`); and only then arms the timer with a period of 1 tick.  The trace grows
by exactly these effects in this order, and the registers are untouched. -/
theorem playAnimation_step (application : Application) (i : Nat)
    (hi : i < application.animationsNb) (hne : i ≠ application.animationIdx) :
    playAnimationFn.step none application = application ∧
    playAnimationFn.step (some application.animationIdx) application = application ∧
    (∃ s₁ s₂ : Application,
      s₁ = (if application.machine.timerActive then
          { application with machine := xTimerStop application.machine } else application) ∧
      s₁.machine.timerActive = false ∧
      s₁.animationIdx = application.animationIdx ∧ s₁.frameIdx = application.frameIdx ∧
      s₂ = storeFrameIdx 0 (storeAnimationIdx i s₁) ∧
      s₂.machine.timerActive = false ∧
      playAnimationFn.step (some i) application =
        { s₂ with machine := xTimerChangePeriod 1 s₂.machine }) ∧
    (playAnimationFn.step (some i) application).animationIdx = i ∧
    (playAnimationFn.step (some i) application).frameIdx = 0 ∧
    (playAnimationFn.step (some i) application).machine.timerActive = true ∧
    (playAnimationFn.step (some i) application).machine.timerPeriod = 1 ∧
    (playAnimationFn.step (some i) application).machine.trace =
      application.machine.trace ++
        ((if application.machine.timerActive then [Effect.timerStop] else []) ++
          [Effect.storeAnimationIdx i, Effect.storeFrameIdx 0, Effect.timerChangePeriod 1]) ∧
    (playAnimationFn.step (some i) application).machine.reg0 = application.machine.reg0 ∧
    (playAnimationFn.step (some i) application).machine.reg1 = application.machine.reg1 := by
  have hgt : ¬ i > application.animationsNb := by omega
  refine ⟨rfl, by simp [playAnimationFn.step], ?_⟩
  cases hact : application.machine.timerActive <;>
    simp [playAnimationFn.step, hne, hgt, xTimerIsTimerActive, hact, xTimerStop,
      xTimerChangePeriod, storeAnimationIdx, storeFrameIdx]

/-- C10, the scenario: index 1 is selected while index 0 is playing at frame 2
of 4.  The timer is stopped, the Playback State becomes (1, 0), and the timer
is armed with a period of one tick. -/
theorem playAnimation_step_witness :
    ((1 : Nat) < playingApp.animationsNb ∧ (1 : Nat) ≠ playingApp.animationIdx) ∧
    (playAnimationFn.step (some 1) playingApp).animationIdx = 1 ∧
    (playAnimationFn.step (some 1) playingApp).frameIdx = 0 ∧
    (playAnimationFn.step (some 1) playingApp).machine.timerActive = true ∧
    (playAnimationFn.step (some 1) playingApp).machine.timerPeriod = 1 ∧
    (playAnimationFn.step (some 1) playingApp).machine.trace =
      playingApp.machine.trace ++
        [Effect.timerStop, Effect.storeAnimationIdx 1, Effect.storeFrameIdx 0,
         Effect.timerChangePeriod 1] :=
  have h := playAnimation_step playingApp 1 (by decide) (by decide)
  ⟨⟨by decide, by decide⟩, h.2.2.2.1, h.2.2.2.2.1, h.2.2.2.2.2.1, h.2.2.2.2.2.2.1,
    h.2.2.2.2.2.2.2.1⟩

/-! ## Frame index wrap-around -/

theorem SendCall.completes_regSteps (call : SendCall) (m : Machine) (hin : call.InBounds)
    (h : EventuallyIdle m.status) :
    ∃ s ops, Completes (fun fuel => call.run fuel m) s ∧ m.RegSteps s ops := by
  obtain ⟨s, hs⟩ := SendCall.completes call m hin h
  obtain ⟨fuel, hf⟩ := hs.state
  obtain ⟨ops, hops⟩ := SendCall.run_regSteps call fuel m
  rw [hf] at hops
  exact ⟨s, ops, hs, hops⟩

theorem showFrame_completes (port : Port) (app : Application) (animation : Animation)
    (frame : Frames) (hanim : app.animations[app.animationIdx]? = some animation)
    (hframe : animation.frames[app.frameIdx]? = some frame)
    (hbuf : 128 ≤ frame.buffer.length) (hidle : EventuallyIdle app.machine.status) :
    ∃ m₃ ops, app.machine.RegSteps m₃ ops ∧
      Completes (fun fuel => showFrame port fuel app)
        (storeFrameIdx (showFrame.next animation.framesNb app.frameIdx)
          { app with machine :=
              (xTimerChangePeriod (showFrame.period port (showFrame.delay port frame.delay))
                m₃) }) := by
  obtain ⟨m₁, o₁, ⟨b₁, h₁⟩, r₁⟩ := SendCall.completes_regSteps
    (.commandArgs .ColumnAddress 0 127) app.machine trivial hidle
  obtain ⟨m₂, o₂, ⟨b₂, h₂⟩, r₂⟩ := SendCall.completes_regSteps
    (.commandArgs .PageAddress 0 3) m₁ trivial (by rw [r₁.status]; exact hidle)
  obtain ⟨m₃, o₃, ⟨b₃, h₃⟩, r₃⟩ := SendCall.completes_regSteps
    (.words frame.buffer 128) m₂ (by simp only [SendCall.InBounds]; omega)
    (by rw [r₂.status, r₁.status]; exact hidle)
  refine ⟨m₃, _, (r₁.trans r₂).trans r₃, max b₁ (max b₂ b₃), fun fuel hf => ?_⟩
  have e₁ : send_Command_u8_u8 fuel .ColumnAddress 0 127 app.machine = Run.done m₁ :=
    h₁ fuel (le_trans (le_max_left _ _) hf)
  have e₂ : send_Command_u8_u8 fuel .PageAddress 0 3 m₁ = Run.done m₂ :=
    h₂ fuel (le_trans (le_trans (le_max_left _ _) (le_max_right _ _)) hf)
  have e₃ : send_u32s fuel frame.buffer 128 m₂ = Run.done m₃ :=
    h₃ fuel (le_trans (le_trans (le_max_right _ _) (le_max_right _ _)) hf)
  show showFrame port fuel app = _
  unfold showFrame
  simp only [hanim, onDisplay, e₁, Run.map, Run.bind_done, e₂, hframe, Option.map_some',
    Option.getD_some, e₃]

theorem showFrame_next_mod {N k : Nat} (hN : 1 ≤ N) (hsz : N < 4294967296) :
    showFrame.next N (k % N) = (k + 1) % N := by
  have hlt : k % N < N := Nat.mod_lt _ hN
  have hs : size_t (k % N + 1) = k % N + 1 := Nat.mod_eq_of_lt (by omega)
  have hmod : (k + 1) % N = (k % N + 1) % N := by
    rw [Nat.add_mod k 1 N]
    rcases Nat.lt_or_ge 1 N with h1 | h1
    · rw [Nat.mod_eq_of_lt h1]
    · have : N = 1 := by omega
      subst this
      simp [Nat.mod_one]
  unfold showFrame.next
  rw [hs, hmod]
  by_cases h : k % N + 1 = N
  · rw [if_pos h, h, Nat.mod_self]
  · rw [if_neg h, Nat.mod_eq_of_lt (show k % N + 1 < N by omega)]

/-- C7 (wrap invariant).  Take an animation with `N ≥ 1` frames (`framesNb` is
`N`, a `size_t`, and the array has `N` frames of 128 words each), selected in
a Playback State with frame index 0, and a Status that eventually reads
not-busy.  Then for every `k`, `k` timer expiries in a row run to completion
and leave the frame index at `k mod N`, which is below `N`, with the selected
animation unchanged: so the expiry number `k` (counting from 0) displays
frame `k mod N`, the visited indices being 0, 1, ..., N-1, 0, 1, ... -/
theorem showFrame_wraps (port : Port) (application : Application) (animation : Animation)
    (N k : Nat)
    (hanim : application.animations[application.animationIdx]? = some animation)
    (hN : 1 ≤ N) (hsz : N < 4294967296)
    (hnb : animation.framesNb = N) (hlen : animation.frames.length = N)
    (hbuf : ∀ frame ∈ animation.frames, frame.buffer.length = 128)
    (h0 : application.frameIdx = 0)
    (hidle : EventuallyIdle application.machine.status) :
    ∃ application', Completes (fun fuel => expiries port fuel k application) application' ∧
      application'.frameIdx = k % N ∧ application'.frameIdx < N ∧
      application'.animationIdx = application.animationIdx ∧
      application'.animations = application.animations ∧
      application'.machine.status = application.machine.status := by
  induction k with
  | zero =>
    exact ⟨application, Completes.pure _, by simpa using h0, by rw [h0]; omega, rfl, rfl, rfl⟩
  | succ k ih =>
    obtain ⟨app, hc, hf, hlt, hidx, hans, hst⟩ := ih
    have hfr : app.frameIdx < animation.frames.length := by rw [hlen]; exact hlt
    have hframe : animation.frames[app.frameIdx]? = some animation.frames[app.frameIdx] :=
      List.getElem?_eq_getElem hfr
    obtain ⟨m₃, ops, hsteps, hdone⟩ := showFrame_completes port app animation
      animation.frames[app.frameIdx] (by rw [hans, hidx]; exact hanim) hframe
      (le_of_eq (hbuf _ (List.getElem_mem _)).symm) (by rw [hst]; exact hidle)
    refine ⟨_, Completes.bind hc hdone, ?_, ?_, ?_, ?_, ?_⟩
    · simp only [storeFrameIdx, hnb, hf]
      exact showFrame_next_mod hN hsz
    · simp only [storeFrameIdx]
      rw [hnb, hf, showFrame_next_mod hN hsz]
      exact Nat.mod_lt _ hN
    · simpa [storeFrameIdx] using hidx
    · simpa [storeFrameIdx] using hans
    · simp only [storeFrameIdx, xTimerChangePeriod]
      rw [hsteps.status, hst]

/-- C7 at a concrete input: animation 1 (three frames) just selected; after
four expiries the frame index is `4 mod 3`. -/
theorem showFrame_wraps_witness :
    (selectedApp.animations[selectedApp.animationIdx]? = demoAnimations[1]? ∧
      selectedApp.frameIdx = 0 ∧ EventuallyIdle selectedApp.machine.status) ∧
    ∃ application', Completes (fun fuel => expiries tenMsPort fuel 4 selectedApp) application' ∧
      application'.frameIdx = 4 % 3 ∧ application'.frameIdx < 3 ∧
      application'.animationIdx = selectedApp.animationIdx ∧
      application'.animations = selectedApp.animations ∧
      application'.machine.status = selectedApp.machine.status :=
  ⟨⟨rfl, rfl, onMachine_idle⟩,
    showFrame_wraps tenMsPort selectedApp
      { frames := [demoFrame 50, demoFrame 100, demoFrame 150], framesNb := 3 } 3 4 rfl
      (by decide) (by decide) rfl rfl (by simp [demoFrame]) rfl onMachine_idle⟩

/-! ## The period handed to the timer -/

theorem toU32_natCast (n : Nat) : toU32 (n : Int) = n % 4294967296 := by
  unfold toU32
  omega

theorem toInt_of_lt {n : Nat} (h : n < 2147483648) : toInt n = (n : Int) := by
  unfold toInt
  have h1 : n % 4294967296 = n := Nat.mod_eq_of_lt (by omega)
  rw [h1, if_pos h]

theorem delay_natCast (port : Port) (n : Nat) (hn : n < 2147483648)
    (hP : port.portTICK_PERIOD_MS < 2147483648) :
    showFrame.delay port (n : Int) = ((max n port.portTICK_PERIOD_MS : Nat) : Int) := by
  unfold showFrame.delay
  rw [toU32_natCast, Nat.mod_eq_of_lt (show n < 4294967296 by omega), toInt_of_lt hP]
  cases port.tickUnsigned
  · simp only [Bool.false_eq_true, if_false]
    split <;> rename_i h
    · rw [max_eq_right (by omega)]
    · rw [max_eq_left (by omega)]
  · simp only [if_true]
    split <;> rename_i h
    · rw [max_eq_right (by omega)]
    · rw [max_eq_left (by omega)]

theorem period_natCast (port : Port) (n : Nat) (hn : n < 4294967296) :
    showFrame.period port (n : Int) = n / port.portTICK_PERIOD_MS := by
  unfold showFrame.period
  have hq : n / port.portTICK_PERIOD_MS < 4294967296 :=
    lt_of_le_of_lt (Nat.div_le_self _ _) hn
  cases port.tickUnsigned
  · simp only [Bool.false_eq_true, if_false]
    rw [← Int.ofNat_tdiv, toU32_natCast, Nat.mod_eq_of_lt hq]
  · simp only [if_true]
    rw [toU32_natCast, Nat.mod_eq_of_lt hn]

theorem toU32_toInt (n : Nat) : toU32 (toInt n) = n % 4294967296 := by
  unfold toU32 toInt
  split <;> omega

theorem period_pos (port : Port) (d : Int) (hd1 : -2147483648 ≤ d) (hd2 : d < 2147483648)
    (hP1 : 1 ≤ port.portTICK_PERIOD_MS) (hP2 : port.portTICK_PERIOD_MS < 4294967296) :
    1 ≤ showFrame.period port (showFrame.delay port d) := by
  have hPP : port.portTICK_PERIOD_MS / port.portTICK_PERIOD_MS = 1 := Nat.div_self hP1
  unfold showFrame.period showFrame.delay
  cases port.tickUnsigned
  · simp only [Bool.false_eq_true, if_false]
    split <;> rename_i h
    · rw [← Int.ofNat_tdiv, hPP, toU32_natCast]
    · have hd0 : 0 ≤ d := by omega
      obtain ⟨n, rfl⟩ := Int.eq_ofNat_of_zero_le hd0
      have hle : port.portTICK_PERIOD_MS ≤ n := by omega
      have hq : n / port.portTICK_PERIOD_MS < 4294967296 :=
        lt_of_le_of_lt (Nat.div_le_self _ _) (by omega)
      rw [← Int.ofNat_tdiv, toU32_natCast, Nat.mod_eq_of_lt hq]
      exact Nat.div_pos hle hP1
  · simp only [if_true]
    split <;> rename_i h
    · rw [toU32_toInt, Nat.mod_eq_of_lt hP2, hPP]
    · exact Nat.div_pos (Nat.le_of_not_lt h) hP1

theorem showFrame_timer (port : Port) (fuel : Nat) (app : Application) :
    (∃ animation frame,
        app.animations[app.animationIdx]? = some animation ∧
        animation.frames[app.frameIdx]? = some frame ∧
        (showFrame port fuel app).isDone = true ∧
        timerPeriods ((showFrame port fuel app).state.machine.trace.drop
          app.machine.trace.length) =
            [showFrame.period port (showFrame.delay port frame.delay)] ∧
        (showFrame port fuel app).state.machine.timerPeriod =
          showFrame.period port (showFrame.delay port frame.delay) ∧
        (showFrame port fuel app).state.machine.timerActive = true) ∨
      ((showFrame port fuel app).isDone = false ∧
        timerPeriods ((showFrame port fuel app).state.machine.trace.drop
          app.machine.trace.length) = []) := by
  rcases showFrame_outcome port fuel app with
    ⟨animation, frame, m₁, m₂, m₃, hanim, hframe, e₁, e₂, e₃, hrun⟩ | ⟨hnd, ops, m', hsteps, hst⟩
  · obtain ⟨o₁, r₁⟩ := SendCall.run_regSteps (.commandArgs .ColumnAddress 0 127) fuel app.machine
    obtain ⟨o₂, r₂⟩ := SendCall.run_regSteps (.commandArgs .PageAddress 0 3) fuel m₁
    obtain ⟨o₃, r₃⟩ := SendCall.run_regSteps (.words frame.buffer 128) fuel m₂
    simp only [SendCall.run] at r₁ r₂ r₃
    rw [e₁] at r₁
    rw [e₂] at r₂
    rw [e₃] at r₃
    simp only [Run.state] at r₁ r₂ r₃
    obtain ⟨ops, hsteps⟩ : ∃ ops, app.machine.RegSteps m₃ ops := ⟨_, (r₁.trans r₂).trans r₃⟩
    have hregs := timerPeriods_of_regs hsteps.regs
    refine Or.inl ⟨animation, frame, hanim, hframe, by rw [hrun]; rfl, ?_, by rw [hrun]; rfl,
      by rw [hrun]; rfl⟩
    rw [hrun]
    simp only [Run.state, storeFrameIdx, xTimerChangePeriod, hsteps.trace, List.append_assoc,
      List.drop_left, timerPeriods_append, hregs]
    rfl
  · refine Or.inr ⟨hnd, ?_⟩
    rw [hst]
    simp only [hsteps.trace, List.drop_left]
    exact timerPeriods_of_regs hsteps.regs

/-- C8, counterexample.  The first frame of animation 1 has a stored duration
of 50; with a tick period of 10 the clamped local `delay` is 50, which is
`max 50 10`, but the period `showFrame` passes to `xTimerChangePeriod` is
`50 / 10 = 5` ticks, for a signed and for an unsigned tick type alike.  With
an unsigned tick type a negative duration is not clamped at all: for `-1` the
local `delay` stays `-1` and the period is `4294967295 / 10`. -/
theorem showFrame_period_counterexample :
    ((darkApp.animations[darkApp.animationIdx]?.bind
        (fun a => a.frames[darkApp.frameIdx]?)).map Frames.delay = some 50) ∧
    max (50 : Int) (tenMsPort.portTICK_PERIOD_MS : Int) = 50 ∧
    showFrame.delay tenMsPort 50 = 50 ∧
    (showFrame tenMsPort 0 darkApp).isDone = true ∧
    timerPeriods (showFrame tenMsPort 0 darkApp).state.machine.trace = [5] ∧
    (showFrame tenMsPort 0 darkApp).state.machine.timerPeriod = 5 ∧
    showFrame.period { tenMsPort with tickUnsigned := false }
      (showFrame.delay { tenMsPort with tickUnsigned := false } 50) = 5 ∧
    ¬ ((showFrame tenMsPort 0 darkApp).state.machine.timerPeriod =
        (max (50 : Int) (tenMsPort.portTICK_PERIOD_MS : Int)).toNat) ∧
    showFrame.delay tenMsPort (-1) = -1 ∧
    showFrame.period tenMsPort (showFrame.delay tenMsPort (-1)) = 429496729 := by
  refine ⟨rfl, by decide, by decide, rfl, rfl, rfl, by decide, by decide, by decide,
    by decide⟩

/-- C8, amended.  For every stored frame duration `d` with `0 ≤ d` (an `int`)
and every tick period between 1 and `2^31 - 1`, signed or unsigned: the local
`delay` of `showFrame` after the clamp equals `max d portTICK_PERIOD_MS`, and
the period `showFrame` passes to `xTimerChangePeriod` is that delay divided by
the tick period, `max d portTICK_PERIOD_MS / portTICK_PERIOD_MS` ticks, which
is at least 1.  This is the one period in the trace of a callback that
returns, and the period the timer then has. -/
theorem showFrame_period_clamped (port : Port) (d : Int)
    (hd0 : 0 ≤ d) (hd1 : d < 2147483648)
    (hP0 : 1 ≤ port.portTICK_PERIOD_MS) (hP1 : port.portTICK_PERIOD_MS < 2147483648) :
    showFrame.delay port d = max d (port.portTICK_PERIOD_MS : Int) ∧
    showFrame.period port (showFrame.delay port d) =
      (max d (port.portTICK_PERIOD_MS : Int)).toNat / port.portTICK_PERIOD_MS ∧
    1 ≤ (max d (port.portTICK_PERIOD_MS : Int)).toNat / port.portTICK_PERIOD_MS ∧
    ∀ (fuel : Nat) (application application' : Application) (animation : Animation)
      (frame : Frames),
      application.animations[application.animationIdx]? = some animation →
      animation.frames[application.frameIdx]? = some frame → frame.delay = d →
      showFrame port fuel application = Run.done application' →
        timerPeriods (application'.machine.trace.drop application.machine.trace.length) =
          [(max d (port.portTICK_PERIOD_MS : Int)).toNat / port.portTICK_PERIOD_MS] ∧
        application'.machine.timerPeriod =
          (max d (port.portTICK_PERIOD_MS : Int)).toNat / port.portTICK_PERIOD_MS ∧
        application'.machine.timerActive = true := by
  obtain ⟨n, rfl⟩ := Int.eq_ofNat_of_zero_le hd0
  have hn : n < 2147483648 := by omega
  have hmax : max (n : Int) (port.portTICK_PERIOD_MS : Int) =
      ((max n port.portTICK_PERIOD_MS : Nat) : Int) := (Nat.cast_max n _).symm
  have hdelay := delay_natCast port n hn hP1
  have hperiod : showFrame.period port (showFrame.delay port (n : Int)) =
      (max (n : Int) (port.portTICK_PERIOD_MS : Int)).toNat / port.portTICK_PERIOD_MS := by
    rw [hdelay, hmax, Int.toNat_natCast,
      period_natCast port _ (lt_of_lt_of_le (max_lt hn hP1) (by decide))]
  refine ⟨by rw [hdelay, hmax], hperiod, ?_, ?_⟩
  · rw [hmax, Int.toNat_natCast]
    exact Nat.div_pos (le_max_right _ _) hP0
  intro fuel app app' animation frame hanim hframe hd hrun
  rcases showFrame_timer port fuel app with
    ⟨animation', frame', hanim', hframe', -, htp, hper, hact⟩ | ⟨hnd, -⟩
  · rw [hanim] at hanim'
    cases hanim'
    rw [hframe] at hframe'
    cases hframe'
    rw [hrun, hd] at htp hper
    rw [hrun] at hact
    exact ⟨by rw [← hperiod]; exact htp, by rw [← hperiod]; exact hper, hact⟩
  · rw [hrun] at hnd
    simp [Run.isDone] at hnd

/-- C8, amended, at a concrete input: a duration of 50 with a tick period of
10 gives a delay of 50 and a period of 5 ticks. -/
theorem showFrame_period_clamped_witness :
    ((0 : Int) ≤ 50 ∧ (50 : Int) < 2147483648 ∧ 1 ≤ tenMsPort.portTICK_PERIOD_MS ∧
      tenMsPort.portTICK_PERIOD_MS < 2147483648) ∧
    showFrame.delay tenMsPort 50 = max 50 (tenMsPort.portTICK_PERIOD_MS : Int) ∧
    showFrame.period tenMsPort (showFrame.delay tenMsPort 50) =
      (max 50 (tenMsPort.portTICK_PERIOD_MS : Int)).toNat / tenMsPort.portTICK_PERIOD_MS :=
  have h := showFrame_period_clamped tenMsPort 50 (by decide) (by decide) (by decide)
    (by decide)
  ⟨⟨by decide, by decide, by decide, by decide⟩, h.1, h.2.1⟩

/-! ## The timer is never armed with a zero period -/

/-- C9 (no zero period).  For every stored frame duration `d` in the range of
`int`, negative values and 0 included, and every tick period from 1 up,
signed or unsigned: the period `showFrame` computes for `xTimerChangePeriod`
is at least 1 tick, and so is every period in the trace of a timer callback
on a frame of that duration, whatever its outcome.  Every period the player
task hands to the timer is 1, and so is every period `main` hands to it. -/
theorem timer_period_positive (port : Port) (d : Int)
    (hd1 : -2147483648 ≤ d) (hd2 : d < 2147483648)
    (hP1 : 1 ≤ port.portTICK_PERIOD_MS) (hP2 : port.portTICK_PERIOD_MS < 4294967296) :
    1 ≤ showFrame.period port (showFrame.delay port d) ∧
    (∀ (fuel : Nat) (application : Application) (animation : Animation) (frame : Frames),
      application.animations[application.animationIdx]? = some animation →
      animation.frames[application.frameIdx]? = some frame → frame.delay = d →
      ∀ p ∈ timerPeriods ((showFrame port fuel application).state.machine.trace.drop
          application.machine.trace.length), 1 ≤ p) ∧
    (∀ (received : Option Nat) (application : Application),
      ∀ p ∈ timerPeriods ((playAnimationFn.step received application).machine.trace.drop
          application.machine.trace.length), p = 1) ∧
    (∀ (fuel : Nat) (animations : List Animation) (m : Machine),
      ∀ p ∈ timerPeriods ((main fuel animations m).state.machine.trace.drop m.trace.length),
        p = 1) := by
  have hpos := period_pos port d hd1 hd2 hP1 hP2
  refine ⟨hpos, ?_, ?_, ?_⟩
  · intro fuel app animation frame hanim hframe hd p hp
    rcases showFrame_timer port fuel app with
      ⟨animation', frame', hanim', hframe', -, htp, -, -⟩ | ⟨-, htp⟩
    · rw [hanim] at hanim'
      cases hanim'
      rw [hframe] at hframe'
      cases hframe'
      rw [htp, hd] at hp
      rw [List.mem_singleton.1 hp]
      exact hpos
    · rw [htp] at hp
      simp at hp
  · intro received app p hp
    cases received with
    | none => simp [playAnimationFn.step, timerPeriods] at hp
    | some i =>
      by_cases hne : i = app.animationIdx
      · simp [playAnimationFn.step, hne, timerPeriods] at hp
      · by_cases hgt : i > app.animationsNb
        · simp [playAnimationFn.step, hne, hgt, print, timerPeriods] at hp
        · cases hact : app.machine.timerActive <;>
            simp [playAnimationFn.step, hne, hgt, xTimerIsTimerActive, hact, xTimerStop,
              xTimerChangePeriod, storeAnimationIdx, storeFrameIdx, timerPeriods] at hp <;>
            exact hp
  · intro fuel animations m p hp
    obtain ⟨ops, hops⟩ := SendCall.run_regSteps (.command .EntireDisplayOn) fuel
      (powerOn (xTimerCreate 1 m))
    have htr : (main fuel animations m).state.machine.trace =
        m.trace ++ ([Effect.timerCreate 1,
          Effect.write SSD1306_DRIVER_S00_AXI_SLV_REG0_OFFSET (u32 SHOULD_TURN_POWER_ON_MASK)] ++
          ops) := by
      have h := hops.trace
      simp only [SendCall.run] at h
      simp only [main, onDisplay]
      cases hrun : send_Command fuel .EntireDisplayOn (powerOn (xTimerCreate 1 m)) <;>
        rw [hrun] at h <;>
        simp only [Run.map, Run.state] at h ⊢ <;>
        rw [h] <;>
        simp [powerOn, writeReg0_eq, Machine.wroteControl, xTimerCreate]
    rw [htr, List.drop_left, timerPeriods_append, timerPeriods_of_regs hops.regs] at hp
    simpa [timerPeriods] using hp

/-- C9 at a concrete input: a stored duration of -1 with a tick period of 10. -/
theorem timer_period_positive_witness :
    ((-2147483648 : Int) ≤ -1 ∧ (-1 : Int) < 2147483648 ∧ 1 ≤ tenMsPort.portTICK_PERIOD_MS ∧
      tenMsPort.portTICK_PERIOD_MS < 4294967296) ∧
    1 ≤ showFrame.period tenMsPort (showFrame.delay tenMsPort (-1)) ∧
    1 ≤ showFrame.period { tenMsPort with tickUnsigned := false }
      (showFrame.delay { tenMsPort with tickUnsigned := false } (-1)) :=
  ⟨⟨by decide, by decide, by decide, by decide⟩,
    (timer_period_positive tenMsPort (-1) (by decide) (by decide) (by decide) (by decide)).1,
    (timer_period_positive { tenMsPort with tickUnsigned := false } (-1) (by decide)
      (by decide) (by decide) (by decide)).1⟩

/-! ## Power on and off -/

/-- C11 (power operations are single Control writes).  `powerOn` changes the
machine by exactly one effect, a write to Control (offset 0) of the value 1,
whose bit 0 (power-enable) is set; `powerOff` by exactly one effect, a write
to Control of `0xFFFFFFFC`, whose bits 0 and 1 (power-enable, send-request)
are both clear.  Nothing else changes: Payload and the count of Status reads
are as before, and the trace gains no read, so neither operation waits for
the hardware. -/
theorem power_single_write (m : Machine) :
    powerOn m = { m with
      reg0 := 1,
      trace := m.trace ++ [Effect.write SSD1306_DRIVER_S00_AXI_SLV_REG0_OFFSET 1] } ∧
    Nat.testBit 1 0 = true ∧
    powerOff m = { m with
      reg0 := 4294967292,
      trace := m.trace ++ [Effect.write SSD1306_DRIVER_S00_AXI_SLV_REG0_OFFSET 4294967292] } ∧
    Nat.testBit 4294967292 0 = false ∧ Nat.testBit 4294967292 1 = false ∧
    (powerOn m).trace.length = m.trace.length + 1 ∧
    (powerOff m).trace.length = m.trace.length + 1 :=
  ⟨rfl, by decide, rfl, by decide, by decide, by simp [powerOn, writeReg0_eq, Machine.wroteControl],
    by simp [powerOff, writeReg0_eq, Machine.wroteControl]⟩

/-! ## The exact course of a handshake -/

theorem loop_true_exact (k : Nat) :
    ∀ (r fuel : Nat) (m : Machine), (∀ j, j < k → isBusy (m.status (m.polls + j))) →
      ¬ isBusy (m.status (m.polls + k)) → k < fuel →
      waitForSendDone.loop fuel r true m = Run.done
        { m with polls := m.polls + (k + 1),
                 trace := m.trace ++ pollReads m.status m.polls (k + 1) } := by
  induction k with
  | zero =>
    intro r fuel m _ hidle hf
    obtain ⟨f, rfl⟩ : ∃ f, fuel = f + 1 := ⟨fuel - 1, by omega⟩
    rw [loop_succ_true, if_neg (by simpa using hidle)]
    simp [Machine.polled, pollReads]
  | succ k ih =>
    intro r fuel m hbusy hidle hf
    obtain ⟨f, rfl⟩ : ∃ f, fuel = f + 1 := ⟨fuel - 1, by omega⟩
    have h0 : isBusy (m.status m.polls) := by simpa using hbusy 0 (Nat.succ_pos k)
    rw [loop_succ_true, if_pos h0, ih r f m.polled
      (fun j hj => by
        have := hbusy (j + 1) (by omega)
        simpa [Machine.polled, Nat.add_assoc, Nat.add_comm 1 j] using this)
      (by simpa [Machine.polled, Nat.add_assoc, Nat.add_comm 1 k] using hidle)
      (by omega)]
    simp [Machine.polled, pollReads, Nat.add_assoc, Nat.add_comm 1 (k + 1)]

theorem loop_true_spin (fuel : Nat) :
    ∀ (r : Nat) (m : Machine), (∀ j, j < fuel → isBusy (m.status (m.polls + j))) →
      waitForSendDone.loop fuel r true m = Run.spinning
        { m with polls := m.polls + fuel,
                 trace := m.trace ++ pollReads m.status m.polls fuel } := by
  induction fuel with
  | zero =>
    intro r m _
    simp [loop_zero, pollReads]
  | succ fuel ih =>
    intro r m hbusy
    have h0 : isBusy (m.status m.polls) := by simpa using hbusy 0 (Nat.succ_pos fuel)
    rw [loop_succ_true, if_pos h0, ih r m.polled
      (fun j hj => by
        have := hbusy (j + 1) (by omega)
        simpa [Machine.polled, Nat.add_assoc, Nat.add_comm 1 j] using this)]
    simp [Machine.polled, pollReads, Nat.add_assoc, Nat.add_comm 1 fuel]

theorem sendWithWait_exact (r din k fuel : Nat) (m : Machine)
    (hbusy : ∀ j, j < k → isBusy (m.status (m.polls + j)))
    (hidle : ¬ isBusy (m.status (m.polls + k))) (hf : k < fuel) :
    sendWithWait fuel r din m = Run.done (m.afterHandshake r din k) := by
  obtain ⟨f, rfl⟩ : ∃ f, fuel = f + 1 := ⟨fuel - 1, by omega⟩
  rw [sendWithWait_eq, loop_succ_false]
  cases k with
  | zero =>
    rw [if_neg (by simpa [Machine.wroteControl, Machine.wrotePayload] using hidle)]
    simp [Machine.afterHandshake, handshakeOps, Machine.polled, Machine.wroteControl,
      Machine.wrotePayload, pollReads]
  | succ k =>
    have h0 : isBusy (m.status m.polls) := by simpa using hbusy 0 (Nat.succ_pos k)
    rw [if_pos (by simpa [Machine.wroteControl, Machine.wrotePayload] using h0),
      loop_true_exact k _ f _
        (fun j hj => by
          have := hbusy (j + 1) (by omega)
          simpa [Machine.polled, Machine.wroteControl, Machine.wrotePayload, Nat.add_assoc,
            Nat.add_comm 1 j] using this)
        (by simpa [Machine.polled, Machine.wroteControl, Machine.wrotePayload, Nat.add_assoc,
          Nat.add_comm 1 k] using hidle)
        (by omega)]
    simp [Machine.afterHandshake, handshakeOps, Machine.polled, Machine.wroteControl,
      Machine.wrotePayload, Nat.add_assoc, Nat.add_comm 1 (k + 1)]

theorem sendWithWait_spin (r din fuel : Nat) (m : Machine)
    (hbusy : ∀ j, j < fuel + 1 → isBusy (m.status (m.polls + j))) :
    sendWithWait (fuel + 1) r din m = Run.spinning (m.afterHandshake r din fuel) := by
  have h0 : isBusy (m.status m.polls) := by simpa using hbusy 0 (Nat.succ_pos fuel)
  rw [sendWithWait_eq, loop_succ_false,
    if_pos (by simpa [Machine.wroteControl, Machine.wrotePayload] using h0),
    loop_true_spin fuel _ _
      (fun j hj => by
        have := hbusy (j + 1) (by omega)
        simpa [Machine.polled, Machine.wroteControl, Machine.wrotePayload, Nat.add_assoc,
          Nat.add_comm 1 j] using this)]
  simp [Machine.afterHandshake, handshakeOps, Machine.polled, Machine.wroteControl,
    Machine.wrotePayload, Nat.add_assoc, Nat.add_comm 1 fuel]

theorem statusReads_pollReads (status : Nat → Nat) (p n : Nat) :
    statusReads (pollReads status p n) = (List.range n).map (fun j => u32 (status (p + j))) := by
  induction n generalizing p with
  | zero => rfl
  | succ n ih =>
    rw [List.range_succ_eq_map]
    simp [pollReads, statusReads, ih, Function.comp_def, Nat.add_assoc, Nat.add_comm 1]

theorem statusReads_handshakeOps (status : Nat → Nat) (p r din k : Nat) :
    statusReads (handshakeOps status p r din k) =
      (List.range (k + 1)).map (fun j => u32 (status (p + j))) := by
  rw [List.range_succ_eq_map]
  simp [handshakeOps, statusReads, statusReads_pollReads, Function.comp_def, Nat.add_assoc,
    Nat.add_comm 1]

theorem controlWrites_handshakeOps (status : Nat → Nat) (p r din k : Nat) :
    controlWrites (handshakeOps status p r din k) =
      [u32 (r ||| SHOULD_SEND_DIN_MASK), u32 (r &&& not32 SHOULD_SEND_DIN_MASK)] := by
  simp [handshakeOps, controlWrites, controlWrites_pollReads]

theorem payloadWrites_handshakeOps (status : Nat → Nat) (p r din k : Nat) :
    payloadWrites (handshakeOps status p r din k) = [u32 din] := by
  simp [handshakeOps, payloadWrites, payloadWrites_pollReads]

theorem afterHandshake_drop (r din k : Nat) (m : Machine) :
    (m.afterHandshake r din k).trace.drop m.trace.length =
      handshakeOps m.status m.polls r din k := by
  simp [Machine.afterHandshake]

/-- C13 (handshake termination).  Take any handshake `sendWithWait(r, din)`.
If the Status values read from now on are busy at positions `0 .. k-1` and
not busy at position `k`, then with every poll budget above `k` the handshake
returns, in the same state whatever the budget: it has read Status exactly
`k + 1` times (the values at positions `0 .. k`, the last one not busy), has
written Control exactly twice (send-request set, then clear) and Payload
exactly once; with a budget of `k` reads or fewer it has not returned.  If
every Status read returns busy, the handshake does not return within any
budget and has used the whole budget polling. -/
theorem handshake_termination (r din : Nat) (m : Machine) :
    (∀ k, (∀ j, j < k → isBusy (m.status (m.polls + j))) →
      ¬ isBusy (m.status (m.polls + k)) →
      (∀ fuel, k < fuel → sendWithWait fuel r din m = Run.done (m.afterHandshake r din k)) ∧
      (∀ fuel, fuel ≤ k → (sendWithWait fuel r din m).isDone = false) ∧
      (m.afterHandshake r din k).polls = m.polls + (k + 1) ∧
      statusReads ((m.afterHandshake r din k).trace.drop m.trace.length) =
        (List.range (k + 1)).map (fun j => u32 (m.status (m.polls + j))) ∧
      (statusReads ((m.afterHandshake r din k).trace.drop m.trace.length)).length = k + 1 ∧
      controlWrites ((m.afterHandshake r din k).trace.drop m.trace.length) =
        [u32 (r ||| SHOULD_SEND_DIN_MASK), u32 (r &&& not32 SHOULD_SEND_DIN_MASK)] ∧
      payloadWrites ((m.afterHandshake r din k).trace.drop m.trace.length) = [u32 din]) ∧
    ((∀ j, isBusy (m.status (m.polls + j))) →
      ∀ fuel, (sendWithWait fuel r din m).isDone = false ∧
        (sendWithWait fuel r din m).state.polls = m.polls + fuel) := by
  constructor
  · intro k hbusy hidle
    refine ⟨fun fuel hf => sendWithWait_exact r din k fuel m hbusy hidle hf, ?_, rfl, ?_, ?_,
      ?_, ?_⟩
    · intro fuel hf
      cases fuel with
      | zero => rfl
      | succ f =>
        rw [sendWithWait_spin r din f m (fun j hj => hbusy j (by omega))]
        rfl
    · rw [afterHandshake_drop, statusReads_handshakeOps]
    · rw [afterHandshake_drop, statusReads_handshakeOps]
      simp
    · rw [afterHandshake_drop, controlWrites_handshakeOps]
    · rw [afterHandshake_drop, payloadWrites_handshakeOps]
  · intro hbusy fuel
    cases fuel with
    | zero => exact ⟨rfl, rfl⟩
    | succ f =>
      rw [sendWithWait_spin r din f m (fun j _ => hbusy j)]
      exact ⟨rfl, rfl⟩

/-- C13 at concrete inputs: on a Status that reads busy, busy, idle the
handshake returns after three reads for every budget above 2; on a Status
that is always busy it never returns. -/
theorem handshake_termination_witness :
    ((∀ j, j < 2 → isBusy (onMachine.status (onMachine.polls + j))) ∧
      ¬ isBusy (onMachine.status (onMachine.polls + 2)) ∧
      ∀ j, isBusy (stuckMachine.status (stuckMachine.polls + j))) ∧
    (∀ fuel, 2 < fuel →
      sendWithWait fuel 9 33 onMachine = Run.done (onMachine.afterHandshake 9 33 2)) ∧
    (statusReads ((onMachine.afterHandshake 9 33 2).trace.drop onMachine.trace.length)).length
      = 2 + 1 ∧
    (∀ fuel, (sendWithWait fuel 9 33 stuckMachine).isDone = false ∧
      (sendWithWait fuel 9 33 stuckMachine).state.polls = stuckMachine.polls + fuel) :=
  have hb : ∀ j, j < 2 → isBusy (onMachine.status (onMachine.polls + j)) := by decide
  have hi : ¬ isBusy (onMachine.status (onMachine.polls + 2)) := by decide
  have hs : ∀ j, isBusy (stuckMachine.status (stuckMachine.polls + j)) := fun _ =>
    (by decide : isBusy 1)
  have h₁ := (handshake_termination 9 33 onMachine).1 2 hb hi
  ⟨⟨hb, hi, hs⟩, h₁.1, h₁.2.2.2.2.1, (handshake_termination 9 33 stuckMachine).2 hs⟩

/-! ## The busy gate -/

theorem busyGated_append (g : Bool) (a b : List Effect) :
    busyGated g (a ++ b) = (busyGated g a && busyGated (gateAfter g a) b) := by
  induction a generalizing g with
  | nil => simp [busyGated, gateAfter]
  | cons e a ih => simp [busyGated, gateAfter, ih, Bool.and_assoc]

theorem gateAfter_append (g : Bool) (a b : List Effect) :
    gateAfter g (a ++ b) = gateAfter (gateAfter g a) b := by
  induction a generalizing g with
  | nil => rfl
  | cons e a ih => simp [gateAfter, ih]

theorem u32_testBit_one (x : Nat) : (u32 x).testBit 1 = x.testBit 1 := by
  have h : u32 x = x % 2 ^ 32 := rfl
  rw [h, Nat.testBit_mod_two_pow]
  simp

theorem request_bit_set (r : Nat) : (u32 (r ||| SHOULD_SEND_DIN_MASK)).testBit 1 = true := by
  simp [u32_testBit_one, Nat.testBit_or, testBit_mask]

theorem request_bit_clear (r : Nat) :
    (u32 (r &&& not32 SHOULD_SEND_DIN_MASK)).testBit 1 = false := by
  simp [u32_testBit_one, Nat.testBit_and, testBit_not32_mask]

theorem isIdleRead_status (v : Nat) :
    (Effect.read SSD1306_DRIVER_S00_AXI_SLV_REG2_OFFSET (u32 v)).isIdleRead =
      !decide (isBusy v) := by
  simp [Effect.isIdleRead, isBusy, u32_u32]

theorem busyGated_pollReads (g : Bool) (status : Nat → Nat) (p n : Nat) :
    busyGated g (pollReads status p n) = true := by
  induction n generalizing g p with
  | zero => rfl
  | succ n ih => simp [pollReads, busyGated, Effect.isSendRequest, ih]

theorem gateAfter_pollReads_true (status : Nat → Nat) (p n : Nat) :
    gateAfter true (pollReads status p n) = true := by
  induction n generalizing p with
  | zero => rfl
  | succ n ih =>
    simp only [pollReads, gateAfter, gateStep, Effect.isSendRequest]
    simpa using ih (p + 1)

theorem gateAfter_pollReads_idle (g : Bool) (status : Nat → Nat) (p n : Nat)
    (h : ¬ isBusy (status (p + n))) : gateAfter g (pollReads status p (n + 1)) = true := by
  induction n generalizing g p with
  | zero =>
    have h' : ¬ isBusy (status p) := h
    simp [pollReads, gateAfter, gateStep, Effect.isSendRequest, isIdleRead_status, h']
  | succ n ih =>
    rw [pollReads, gateAfter]
    exact ih _ (p + 1) (by simpa [Nat.add_assoc, Nat.add_comm 1 n] using h)

theorem busyGated_handshakeOps (g : Bool) (status : Nat → Nat) (p r din k : Nat) :
    busyGated g (handshakeOps status p r din k) = g := by
  simp [handshakeOps, busyGated, gateStep, Effect.isSendRequest, Effect.isIdleRead,
    request_bit_set, request_bit_clear, busyGated_pollReads]

theorem gateAfter_handshakeOps (g : Bool) (status : Nat → Nat) (p r din k : Nat)
    (h : ¬ isBusy (status (p + k))) : gateAfter g (handshakeOps status p r din k) = true := by
  cases k with
  | zero =>
    have hi : ¬ isBusy (u32 (status p)) := by simpa [isBusy, u32_u32] using h
    simp [handshakeOps, gateAfter, gateStep, Effect.isSendRequest, Effect.isIdleRead,
      request_bit_set, request_bit_clear, pollReads, hi]
  | succ k =>
    simp only [handshakeOps, gateAfter]
    exact gateAfter_pollReads_idle _ status (p + 1) k
      (by simpa [Nat.add_assoc, Nat.add_comm 1 k] using h)

theorem idle_within_or_busy (status : Nat → Nat) (p fuel : Nat) :
    (∃ k, k < fuel ∧ (∀ j, j < k → isBusy (status (p + j))) ∧ ¬ isBusy (status (p + k))) ∨
      (∀ j, j < fuel → isBusy (status (p + j))) := by
  induction fuel with
  | zero => exact Or.inr (fun j hj => absurd hj (Nat.not_lt_zero j))
  | succ fuel ih =>
    rcases ih with ⟨k, hk, hb, hi⟩ | hall
    · exact Or.inl ⟨k, Nat.lt_succ_of_lt hk, hb, hi⟩
    · by_cases h : isBusy (status (p + fuel))
      · refine Or.inr (fun j hj => ?_)
        rcases Nat.lt_succ_iff_lt_or_eq.1 hj with hlt | rfl
        · exact hall j hlt
        · exact h
      · exact Or.inl ⟨fuel, Nat.lt_succ_self fuel, hall, h⟩

theorem sendWithWait_course (fuel r din : Nat) (m : Machine) :
    (fuel = 0 ∧ sendWithWait fuel r din m = Run.spinning
        ((m.wrotePayload (u32 din)).wroteControl (u32 (r ||| SHOULD_SEND_DIN_MASK)))) ∨
      (∃ k, k < fuel ∧ ¬ isBusy (m.status (m.polls + k)) ∧
        sendWithWait fuel r din m = Run.done (m.afterHandshake r din k)) ∨
      (∃ f, fuel = f + 1 ∧
        sendWithWait fuel r din m = Run.spinning (m.afterHandshake r din f)) := by
  cases fuel with
  | zero => exact Or.inl ⟨rfl, rfl⟩
  | succ f =>
    rcases idle_within_or_busy m.status m.polls (f + 1) with ⟨k, hk, hb, hi⟩ | hall
    · exact Or.inr (Or.inl ⟨k, hk, hi, sendWithWait_exact r din k (f + 1) m hb hi hk⟩)
    · exact Or.inr (Or.inr ⟨f, rfl, sendWithWait_spin r din f m hall⟩)

theorem handshakes_gated (fuel r : Nat) (dins : List Nat) (m : Machine) :
    ∃ ops, (handshakes fuel r dins m).state.trace = m.trace ++ ops ∧
      busyGated true ops = true ∧
      ((handshakes fuel r dins m).isDone = true → gateAfter true ops = true) ∧
      ((handshakes fuel r dins m).isDone = true → dins ≠ [] → ∀ g, gateAfter g ops = true) ∧
      (∀ d ds, dins = d :: ds → ∃ rest, ops =
        Effect.write SSD1306_DRIVER_S00_AXI_SLV_REG1_OFFSET (u32 d) ::
        Effect.write SSD1306_DRIVER_S00_AXI_SLV_REG0_OFFSET (u32 (r ||| SHOULD_SEND_DIN_MASK)) ::
        rest) := by
  induction dins generalizing m with
  | nil =>
    exact ⟨[], by simp [handshakes, Run.state], rfl, fun _ => rfl, fun _ h => absurd rfl h,
      fun d ds h => by cases h⟩
  | cons din dins ih =>
    simp only [handshakes]
    rcases sendWithWait_course fuel r din m with ⟨-, h⟩ | ⟨k, -, hi, h⟩ | ⟨f, -, h⟩
    · rw [h]
      refine ⟨[Effect.write SSD1306_DRIVER_S00_AXI_SLV_REG1_OFFSET (u32 din),
        Effect.write SSD1306_DRIVER_S00_AXI_SLV_REG0_OFFSET (u32 (r ||| SHOULD_SEND_DIN_MASK))],
        by simp [Run.state, Machine.wrotePayload, Machine.wroteControl], ?_,
        by simp [Run.isDone], by simp [Run.isDone], ?_⟩
      · simp [busyGated, gateStep, Effect.isSendRequest, Effect.isIdleRead]
      · intro d ds hd
        cases hd
        exact ⟨[], rfl⟩
    · rw [h, Run.bind_done]
      obtain ⟨b, hb, hg, hdone, -, -⟩ := ih (m.afterHandshake r din k)
      refine ⟨handshakeOps m.status m.polls r din k ++ b, ?_, ?_, ?_, ?_, ?_⟩
      · rw [hb]
        simp [Machine.afterHandshake]
      · rw [busyGated_append, busyGated_handshakeOps,
          gateAfter_handshakeOps true m.status m.polls r din k hi, hg]
        rfl
      · intro hd
        rw [gateAfter_append, gateAfter_handshakeOps true m.status m.polls r din k hi]
        exact hdone hd
      · intro hd _ g
        rw [gateAfter_append, gateAfter_handshakeOps g m.status m.polls r din k hi]
        exact hdone hd
      · intro d ds hd
        cases hd
        exact ⟨_, rfl⟩
    · rw [h]
      refine ⟨handshakeOps m.status m.polls r din f, by simp [Run.state, Machine.afterHandshake],
        busyGated_handshakeOps true _ _ _ _ _, by simp [Run.isDone], by simp [Run.isDone], ?_⟩
      intro d ds hd
      cases hd
      exact ⟨_, rfl⟩

theorem SendCall.run_powered_cases (call : SendCall) (fuel : Nat) (m : Machine)
    (hpow : (u32 m.reg0).testBit 0 = true) :
    (∃ s, handshakes fuel (call.control (u32 m.reg0)) call.wire m.readControl = Run.done s ∧
        call.InBounds ∧ call.run fuel m = Run.done (s.wroteControl (u32 m.reg0))) ∨
      ((call.run fuel m).isDone = false ∧
        (call.run fuel m).state =
          (handshakes fuel (call.control (u32 m.reg0)) call.wire m.readControl).state) := by
  rw [SendCall.run_powered call fuel m hpow]
  cases hrun : handshakes fuel (call.control (u32 m.reg0)) call.wire m.readControl with
  | done s =>
    by_cases hin : call.InBounds
    · exact Or.inl ⟨s, rfl, hin, by simp [hin]⟩
    · exact Or.inr (by simp [hin, Run.isDone, Run.state])
  | spinning s => exact Or.inr (by simp [Run.isDone, Run.state])
  | outOfBounds s => exact Or.inr (by simp [Run.isDone, Run.state])
theorem wire_cons_of_units {call : SendCall} (h : call.units ≠ []) :
    ∃ d ds, call.wire = d :: ds := by
  cases call with
  | command cmd => exact ⟨_, _, rfl⟩
  | commandArg cmd arg => exact ⟨_, _, rfl⟩
  | commandArgs cmd arg1 arg2 => exact ⟨_, _, rfl⟩
  | words data nels =>
    simp only [SendCall.units] at h
    obtain ⟨d, ds, hd⟩ := List.exists_cons_of_ne_nil h
    exact ⟨u32 d, ds.map u32, by simp [SendCall.wire, hd]⟩
  | bytes data nels =>
    simp only [SendCall.units] at h
    obtain ⟨d, ds, hd⟩ := List.exists_cons_of_ne_nil h
    exact ⟨u8 d, ds.map u8, by simp [SendCall.wire, hd]⟩
  | byte din b => exact ⟨_, _, rfl⟩

/-- C12, counterexample.  `send(Nop)` on a powered display whose Status reads
busy, busy, idle: the call reads Control, writes Payload and at once writes
Control with the send-request bit set (value 11).  No Status read of this call
comes before that first send-request. -/
theorem send_busy_gate_counterexample :
    (u32 onMachine.reg0).testBit 0 = true ∧
    ((SendCall.command .Nop).run 3 onMachine).isDone = true ∧
    ((SendCall.command .Nop).run 3 onMachine).state.trace =
      [Effect.read 0 1, Effect.write 4 0xE3, Effect.write 0 11, Effect.read 8 1,
       Effect.write 0 9, Effect.read 8 1, Effect.read 8 0, Effect.write 0 1] ∧
    (Effect.write 0 11).isSendRequest = true ∧
    statusReads [Effect.read 0 1, Effect.write 4 0xE3] = [] ∧
    busyGated false ((SendCall.command .Nop).run 3 onMachine).state.trace = false := by
  refine ⟨by decide, rfl, rfl, by decide, rfl, ?_⟩
  decide

/-- C12, amended.  For every powered `send` call, every poll budget and every
behaviour of Status: each Control write of the call that sets the
send-request bit, other than the first one, is preceded within the call,
after the earlier send-request, by a Status read that returned not busy
(`busyGated true`: a not-busy read from before the call is counted for the
first send-request only).  The first send-request of a call with at least one
unit is its third effect, right after the read of Control and the write of
Payload, so no Status read of the call precedes it (`busyGated false` fails).
A call that returns after at least one handshake and was entered with the
send-request bit clear ends with the gate open: its last Status read
returned not busy and no send-request follows it. -/
theorem send_busy_gate (call : SendCall) (fuel : Nat) (m : Machine)
    (hpow : (u32 m.reg0).testBit 0 = true) :
    busyGated true ((call.run fuel m).state.trace.drop m.trace.length) = true ∧
    (call.units ≠ [] →
      (∃ d v rest, (call.run fuel m).state.trace.drop m.trace.length =
        Effect.read SSD1306_DRIVER_S00_AXI_SLV_REG0_OFFSET (u32 m.reg0) ::
        Effect.write SSD1306_DRIVER_S00_AXI_SLV_REG1_OFFSET d ::
        Effect.write SSD1306_DRIVER_S00_AXI_SLV_REG0_OFFSET v :: rest ∧ v.testBit 1 = true) ∧
      busyGated false ((call.run fuel m).state.trace.drop m.trace.length) = false) ∧
    ((call.run fuel m).isDone = true → call.units ≠ [] → (u32 m.reg0).testBit 1 = false →
      gateAfter false ((call.run fuel m).state.trace.drop m.trace.length) = true) := by
  obtain ⟨ops, htr, hg, hdone, hdone', hfirst⟩ :=
    handshakes_gated fuel (call.control (u32 m.reg0)) call.wire m.readControl
  have hread : ∀ g, gateStep g
      (Effect.read SSD1306_DRIVER_S00_AXI_SLV_REG0_OFFSET (u32 m.reg0)) = g := by
    intro g
    simp [gateStep, Effect.isSendRequest, Effect.isIdleRead]
  rcases SendCall.run_powered_cases call fuel m hpow with ⟨s, hs, -, hrun⟩ | ⟨hnd, hst⟩
  · rw [hs] at htr hdone hdone'
    simp only [Run.state] at htr
    have hdrop : (call.run fuel m).state.trace.drop m.trace.length =
        Effect.read SSD1306_DRIVER_S00_AXI_SLV_REG0_OFFSET (u32 m.reg0) ::
          (ops ++ [Effect.write SSD1306_DRIVER_S00_AXI_SLV_REG0_OFFSET (u32 m.reg0)]) := by
      rw [hrun]
      simp [Run.state, Machine.wroteControl, htr, Machine.readControl]
    rw [hdrop]
    refine ⟨?_, fun hne => ?_, fun _ hne hbit => ?_⟩
    · simp only [busyGated, hread, busyGated_append, hg, hdone rfl]
      simp [Effect.isSendRequest]
    · obtain ⟨d, ds, hw⟩ := wire_cons_of_units hne
      obtain ⟨rest, hrest⟩ := hfirst d ds hw
      rw [hrest]
      refine ⟨⟨_, _, _, rfl, request_bit_set _⟩, ?_⟩
      simp [busyGated, gateStep, Effect.isSendRequest, Effect.isIdleRead, request_bit_set]
    · obtain ⟨d, ds, hw⟩ := wire_cons_of_units hne
      have hwne : call.wire ≠ [] := by rw [hw]; simp
      simp only [gateAfter, hread, gateAfter_append, hdone' rfl hwne false]
      simp [gateStep, Effect.isSendRequest, Effect.isIdleRead, u32_u32, hbit]
  · have hdrop : (call.run fuel m).state.trace.drop m.trace.length =
        Effect.read SSD1306_DRIVER_S00_AXI_SLV_REG0_OFFSET (u32 m.reg0) :: ops := by
      rw [hst, htr]
      simp [Machine.readControl]
    rw [hdrop]
    refine ⟨?_, fun hne => ?_, fun hd => ?_⟩
    · simp only [busyGated, hread, hg]
      simp [Effect.isSendRequest]
    · obtain ⟨d, ds, hw⟩ := wire_cons_of_units hne
      obtain ⟨rest, hrest⟩ := hfirst d ds hw
      rw [hrest]
      refine ⟨⟨_, _, _, rfl, request_bit_set _⟩, ?_⟩
      simp [busyGated, gateStep, Effect.isSendRequest, Effect.isIdleRead, request_bit_set]
    · rw [hnd] at hd
      cases hd

/-- C12, amended, at a concrete input: `send(ColumnAddress, 0, 127)` on a
powered display with a budget of five polls per handshake. -/
theorem send_busy_gate_witness :
    (u32 onMachine.reg0).testBit 0 = true ∧
    busyGated true (((SendCall.commandArgs .ColumnAddress 0 127).run 5 onMachine).state.trace.drop
      onMachine.trace.length) = true ∧
    busyGated false (((SendCall.commandArgs .ColumnAddress 0 127).run 5 onMachine).state.trace.drop
      onMachine.trace.length) = false :=
  have h := send_busy_gate (SendCall.commandArgs .ColumnAddress 0 127) 5 onMachine (by decide)
  ⟨by decide, h.1, (h.2.1 (by decide)).2⟩

/-! ## One frame on the display -/

theorem SendCall.completes_shape (call : SendCall) (m : Machine)
    (hpow : (u32 m.reg0).testBit 0 = true) (hty : call.WellTyped)
    (hidle : EventuallyIdle m.status) :
    ∃ m' hs, Completes (fun fuel => call.run fuel m) m' ∧
      Handshakes (call.control (u32 m.reg0)) call.units hs ∧
      m'.trace = m.trace ++
        (Effect.read SSD1306_DRIVER_S00_AXI_SLV_REG0_OFFSET (u32 m.reg0) :: hs ++
          [Effect.write SSD1306_DRIVER_S00_AXI_SLV_REG0_OFFSET (u32 m.reg0)]) ∧
      m'.reg0 = u32 m.reg0 ∧ m'.status = m.status := by
  obtain ⟨m', hm'⟩ := SendCall.completes call m (inBounds_of_wellTyped hty) hidle
  obtain ⟨fuel, hf⟩ := hm'.state
  obtain ⟨o, ho⟩ := SendCall.run_regSteps call fuel m
  rw [hf] at ho
  have hst : m'.status = m.status := ho.status
  obtain ⟨s, hs, -, rfl⟩ := SendCall.run_powered_done call fuel m m' hpow hf
  obtain ⟨ops, hops, hshape⟩ := handshakes_done_shape fuel _ (control_lt call (u32_lt m.reg0))
    call.wire m.readControl s hs
  rw [wire_eq_units hty] at hshape
  refine ⟨_, ops, hm', hshape, ?_, rfl, hst⟩
  simp [Machine.wroteControl, hops, Machine.readControl]

/-- C14 (frame transmission).  Take a Playback State whose animation exists
and whose frame index selects a frame `frame` of it (128 words, each a
`u32`), a powered display, and a Status that eventually reads not-busy.  Then
one timer expiry runs to completion, and its effects are, in this order: the
call `send(ColumnAddress, 0, 127)`, the call `send(PageAddress, 0, 3)` and
the call `send(frame.buffer, 128)`, each one a read of Control, complete
handshakes for its units and the write that restores Control; then the
re-arming of the timer; then the store of the advanced frame index.  The
handshakes of the first two calls use a control value `rc` in 8-bit command
mode (bit 2 clear, bit 3 set), those of the third a control value `rd` in
32-bit data mode (bit 2 set, bit 3 clear).  The values written to Payload
are exactly `[0x21, 0, 127, 0x22, 0, 3]` followed by the 128 words of the
frame selected on entry, 134 in all. -/
theorem showFrame_transmits (port : Port) (application : Application)
    (animation : Animation) (frame : Frames)
    (hanim : application.animations[application.animationIdx]? = some animation)
    (hframe : animation.frames[application.frameIdx]? = some frame)
    (hlen : frame.buffer.length = 128) (hwords : ∀ w ∈ frame.buffer, w < 4294967296)
    (hpow : (u32 application.machine.reg0).testBit 0 = true)
    (hidle : EventuallyIdle application.machine.status) :
    ∃ application' rc rd hs₁ hs₂ hs₃,
      Completes (fun fuel => showFrame port fuel application) application' ∧
      application'.machine.trace = application.machine.trace ++
        ((Effect.read SSD1306_DRIVER_S00_AXI_SLV_REG0_OFFSET (u32 application.machine.reg0) ::
            hs₁ ++
            [Effect.write SSD1306_DRIVER_S00_AXI_SLV_REG0_OFFSET (u32 application.machine.reg0)])
          ++
          (Effect.read SSD1306_DRIVER_S00_AXI_SLV_REG0_OFFSET (u32 application.machine.reg0) ::
            hs₂ ++
            [Effect.write SSD1306_DRIVER_S00_AXI_SLV_REG0_OFFSET (u32 application.machine.reg0)])
          ++
          (Effect.read SSD1306_DRIVER_S00_AXI_SLV_REG0_OFFSET (u32 application.machine.reg0) ::
            hs₃ ++
            [Effect.write SSD1306_DRIVER_S00_AXI_SLV_REG0_OFFSET (u32 application.machine.reg0)])
          ++
          [Effect.timerChangePeriod (showFrame.period port (showFrame.delay port frame.delay)),
           Effect.storeFrameIdx (showFrame.next animation.framesNb application.frameIdx)]) ∧
      Handshakes rc [0x21, 0, 127] hs₁ ∧ Handshakes rc [0x22, 0, 3] hs₂ ∧
      Handshakes rd frame.buffer hs₃ ∧
      rc.testBit 2 = false ∧ rc.testBit 3 = true ∧ rd.testBit 2 = true ∧ rd.testBit 3 = false ∧
      payloadWrites (application'.machine.trace.drop application.machine.trace.length) =
        [0x21, 0, 127, 0x22, 0, 3] ++ frame.buffer ∧
      (payloadWrites
        (application'.machine.trace.drop application.machine.trace.length)).length = 134 ∧
      application'.frameIdx = showFrame.next animation.framesNb application.frameIdx := by
  have hc := u32_lt application.machine.reg0
  obtain ⟨m₁, hs₁, ⟨b₁, h₁⟩, sh₁, tr₁, reg₁, st₁⟩ := SendCall.completes_shape
    (.commandArgs .ColumnAddress 0 127) application.machine hpow (by decide) hidle
  have hpow₁ : (u32 m₁.reg0).testBit 0 = true := by rw [reg₁, u32_u32]; exact hpow
  obtain ⟨m₂, hs₂, ⟨b₂, h₂⟩, sh₂, tr₂, reg₂, st₂⟩ := SendCall.completes_shape
    (.commandArgs .PageAddress 0 3) m₁ hpow₁ (by decide) (by rw [st₁]; exact hidle)
  have hpow₂ : (u32 m₂.reg0).testBit 0 = true := by
    rw [reg₂, reg₁, u32_u32, u32_u32]; exact hpow
  have hty : (SendCall.words frame.buffer 128).WellTyped :=
    ⟨hwords, by decide, by rw [hlen]; decide⟩
  obtain ⟨m₃, hs₃, ⟨b₃, h₃⟩, sh₃, tr₃, -, -⟩ := SendCall.completes_shape
    (.words frame.buffer 128) m₂ hpow₂ hty (by rw [st₂, st₁]; exact hidle)
  have hu : (SendCall.words frame.buffer 128).units = frame.buffer := by
    have : (128 : Int).toNat = frame.buffer.length := by rw [hlen]; rfl
    simp only [SendCall.units, this, List.take_length]
  rw [reg₁, u32_u32] at sh₂ tr₂
  rw [reg₂, reg₁, u32_u32, u32_u32, hu] at sh₃
  rw [reg₂, reg₁, u32_u32, u32_u32] at tr₃
  have hbits₁ := control_testBit (.commandArgs .ColumnAddress 0 127) hc
  have hbits₃ := control_testBit (.words frame.buffer 128) hc
  have htrace : (storeFrameIdx (showFrame.next animation.framesNb application.frameIdx)
      { application with machine :=
          (xTimerChangePeriod (showFrame.period port (showFrame.delay port frame.delay))
            m₃) }).machine.trace = application.machine.trace ++
        ((Effect.read SSD1306_DRIVER_S00_AXI_SLV_REG0_OFFSET (u32 application.machine.reg0) ::
            hs₁ ++
            [Effect.write SSD1306_DRIVER_S00_AXI_SLV_REG0_OFFSET (u32 application.machine.reg0)])
          ++
          (Effect.read SSD1306_DRIVER_S00_AXI_SLV_REG0_OFFSET (u32 application.machine.reg0) ::
            hs₂ ++
            [Effect.write SSD1306_DRIVER_S00_AXI_SLV_REG0_OFFSET (u32 application.machine.reg0)])
          ++
          (Effect.read SSD1306_DRIVER_S00_AXI_SLV_REG0_OFFSET (u32 application.machine.reg0) ::
            hs₃ ++
            [Effect.write SSD1306_DRIVER_S00_AXI_SLV_REG0_OFFSET (u32 application.machine.reg0)])
          ++
          [Effect.timerChangePeriod (showFrame.period port (showFrame.delay port frame.delay)),
           Effect.storeFrameIdx (showFrame.next animation.framesNb application.frameIdx)]) := by
    simp [storeFrameIdx, xTimerChangePeriod, tr₃, tr₂, tr₁]
  have hpay : payloadWrites ((storeFrameIdx
      (showFrame.next animation.framesNb application.frameIdx)
      { application with machine :=
          (xTimerChangePeriod (showFrame.period port (showFrame.delay port frame.delay))
            m₃) }).machine.trace.drop application.machine.trace.length) =
        [0x21, 0, 127, 0x22, 0, 3] ++ frame.buffer := by
    rw [htrace, List.drop_left]
    have p₁ := payloadWrites_handshakes sh₁
    have p₂ := payloadWrites_handshakes sh₂
    have p₃ := payloadWrites_handshakes sh₃
    simp only [SendCall.units, Command.opcode] at p₁ p₂
    simp [payloadWrites, payloadWrites_append, p₁, p₂, p₃]
  refine ⟨_, _, _, hs₁, hs₂, hs₃, ⟨max b₁ (max b₂ b₃), fun fuel hf => ?_⟩, htrace, sh₁, sh₂, sh₃,
    ?_, ?_, ?_, ?_, hpay, ?_, rfl⟩
  · have e₁ : send_Command_u8_u8 fuel .ColumnAddress 0 127 application.machine = Run.done m₁ :=
      h₁ fuel (le_trans (le_max_left _ _) hf)
    have e₂ : send_Command_u8_u8 fuel .PageAddress 0 3 m₁ = Run.done m₂ :=
      h₂ fuel (le_trans (le_trans (le_max_left _ _) (le_max_right _ _)) hf)
    have e₃ : send_u32s fuel frame.buffer 128 m₂ = Run.done m₃ :=
      h₃ fuel (le_trans (le_trans (le_max_right _ _) (le_max_right _ _)) hf)
    show showFrame port fuel application = _
    unfold showFrame
    simp only [hanim, onDisplay, e₁, Run.map, Run.bind_done, e₂, hframe, Option.map_some',
      Option.getD_some, e₃]
  · simpa [SendCall.dataMode] using hbits₁ 2
  · simpa [SendCall.width8] using hbits₁ 3
  · simpa [SendCall.dataMode] using hbits₃ 2
  · simpa [SendCall.width8] using hbits₃ 3
  · rw [hpay]
    simp [hlen]

/-- C14 at a concrete input: animation 1 just selected on a powered display;
the callback transmits the two address commands and the first frame. -/
theorem showFrame_transmits_witness :
    ((u32 selectedApp.machine.reg0).testBit 0 = true ∧
      (demoFrame 50).buffer.length = 128 ∧ EventuallyIdle selectedApp.machine.status) ∧
    ∃ application', Completes (fun fuel => showFrame tenMsPort fuel selectedApp) application' ∧
      payloadWrites (application'.machine.trace.drop selectedApp.machine.trace.length) =
        [0x21, 0, 127, 0x22, 0, 3] ++ (demoFrame 50).buffer ∧
      (payloadWrites
        (application'.machine.trace.drop selectedApp.machine.trace.length)).length = 134 :=
  ⟨⟨by decide, by simp [demoFrame], onMachine_idle⟩,
    match showFrame_transmits tenMsPort selectedApp
      { frames := [demoFrame 50, demoFrame 100, demoFrame 150], framesNb := 3 } (demoFrame 50)
      rfl rfl (by simp [demoFrame]) (by simp [demoFrame]) (by decide) onMachine_idle with
    | ⟨app', _, _, _, _, _, hc, _, _, _, _, _, _, _, _, hp, hl, _⟩ => ⟨app', hc, hp, hl⟩⟩

/-! ## Control at rest -/

theorem send_done_reg0 (call : SendCall) (fuel : Nat) (m s : Machine)
    (hlt : m.reg0 < 4294967296) (h : call.run fuel m = Run.done s) : s.reg0 = m.reg0 := by
  by_cases hpow : (u32 m.reg0).testBit 0 = true
  · obtain ⟨s₀, -, -, rfl⟩ := SendCall.run_powered_done call fuel m s hpow h
    exact u32_of_lt hlt
  · rw [SendCall.run_unpowered call fuel m (by simpa using hpow)] at h
    cases h
    rfl

theorem runAll_reg0 (fuel : Nat) (ops : List DriverOp) :
    ∀ (m m' : Machine) (c : Nat), m.reg0 = c → (c = 1 ∨ c = 4294967292) →
      DriverOp.runAll fuel ops m = Run.done m' →
      m'.reg0 = DriverOp.atRest c ops ∧ (m'.reg0 = 1 ∨ m'.reg0 = 4294967292) := by
  induction ops with
  | nil =>
    intro m m' c hc hv h
    cases h
    exact ⟨hc, hc ▸ hv⟩
  | cons op ops ih =>
    intro m m' c hc hv h
    cases op with
    | powerOn => exact ih (powerOn m) m' 1 rfl (Or.inl rfl) (by simpa [DriverOp.runAll, DriverOp.run] using h)
    | powerOff =>
      exact ih (powerOff m) m' 4294967292 rfl (Or.inr rfl)
        (by simpa [DriverOp.runAll, DriverOp.run] using h)
    | send call =>
      simp only [DriverOp.runAll, DriverOp.run] at h
      cases hrun : call.run fuel m with
      | done s =>
        rw [hrun, Run.bind_done] at h
        have hlt : m.reg0 < 4294967296 := by
          rw [hc]
          rcases hv with rfl | rfl <;> decide
        have hc' : s.reg0 = c := by rw [send_done_reg0 call fuel m s hlt hrun, hc]
        exact ih s m' c hc' hv h
      | spinning s =>
        rw [hrun] at h
        cases h
      | outOfBounds s =>
        rw [hrun] at h
        cases h

theorem runAll_completes (ops : List DriverOp) :
    ∀ m : Machine, EventuallyIdle m.status →
      (∀ call, DriverOp.send call ∈ ops → call.InBounds) →
      ∃ m', Completes (fun fuel => DriverOp.runAll fuel ops m) m' := by
  induction ops with
  | nil => exact fun m _ _ => ⟨m, Completes.pure m⟩
  | cons op ops ih =>
    intro m hidle hin
    have hin' : ∀ call, DriverOp.send call ∈ ops → call.InBounds :=
      fun call h => hin call (List.mem_cons_of_mem _ h)
    cases op with
    | powerOn =>
      obtain ⟨m', hm'⟩ := ih (powerOn m) hidle hin'
      exact ⟨m', Completes.bind (Completes.pure (powerOn m)) hm'⟩
    | powerOff =>
      obtain ⟨m', hm'⟩ := ih (powerOff m) hidle hin'
      exact ⟨m', Completes.bind (Completes.pure (powerOff m)) hm'⟩
    | send call =>
      obtain ⟨s, o, hs, hsteps⟩ := SendCall.completes_regSteps call m
        (hin call (List.mem_cons_self _ _)) hidle
      obtain ⟨m', hm'⟩ := ih s (by rw [hsteps.status]; exact hidle) hin'
      exact ⟨m', Completes.bind hs hm'⟩

/-- C15 (Control at rest).  On this register model, where a read of Control
returns the last value written: run any finite sequence of driver operations
that begins with `powerOn`, each later one being `powerOn`, `powerOff` or a
`send` call with any arguments, under any Status behaviour.  Whenever the
sequence has run to its end (and so, the statement holding for every such
sequence, after each completed operation), Control holds 1 if the last power
operation was `powerOn` and `0xFFFFFFFC` if it was `powerOff`; a `send` leaves
it as it found it.  In both values the send-request bit (bit 1) is clear, so
the write that restores Control at the end of a `send` never sets it; in
`0xFFFFFFFC` bits 0 and 1 are clear and bits 2 to 31 are all set.  The sequence
does run to its end, for any large enough poll budget, when every count is
within its buffer and Status eventually reads not-busy. -/
theorem control_at_rest (ops : List DriverOp) (m : Machine) :
    (∀ fuel m', DriverOp.runAll fuel (DriverOp.powerOn :: ops) m = Run.done m' →
      m'.reg0 = DriverOp.atRest 1 ops ∧ (m'.reg0 = 1 ∨ m'.reg0 = 4294967292) ∧
      m'.reg0.testBit 1 = false ∧
      (SSD1306_DRIVER_mReadReg SSD1306_DRIVER_S00_AXI_SLV_REG0_OFFSET m').1 = m'.reg0) ∧
    (EventuallyIdle m.status → (∀ call, DriverOp.send call ∈ ops → call.InBounds) →
      ∃ m', Completes (fun fuel => DriverOp.runAll fuel (DriverOp.powerOn :: ops) m) m') ∧
    Nat.testBit 4294967292 0 = false ∧ Nat.testBit 4294967292 1 = false ∧
    (∀ i, 2 ≤ i → i < 32 → Nat.testBit 4294967292 i = true) := by
  refine ⟨fun fuel m' h => ?_, fun hidle hin => ?_, by decide, by decide, ?_⟩
  · obtain ⟨h₁, h₂⟩ := runAll_reg0 fuel ops (powerOn m) m' 1 rfl (Or.inl rfl)
      (by simpa [DriverOp.runAll, DriverOp.run] using h)
    refine ⟨h₁, h₂, ?_, ?_⟩
    · rcases h₂ with h | h <;> rw [h] <;> decide
    · rw [readReg0_eq]
      rcases h₂ with h | h <;> rw [h] <;> rfl
  · obtain ⟨m', hm'⟩ := runAll_completes ops (powerOn m) hidle hin
    exact ⟨m', Completes.bind (Completes.pure (powerOn m)) hm'⟩
  · intro i h2 h32
    interval_cases i <;> decide

/-- C15 at a concrete input: power on, send a command, power off, send a
column-address command; Control ends at `0xFFFFFFFC`, and at 1 after the
first two operations. -/
theorem control_at_rest_witness :
    ∃ m₁ m₂,
      Completes (fun fuel => DriverOp.runAll fuel
        [DriverOp.powerOn, DriverOp.send (SendCall.command .EntireDisplayOn)] onMachine) m₁ ∧
      m₁.reg0 = 1 ∧
      Completes (fun fuel => DriverOp.runAll fuel
        [DriverOp.powerOn, DriverOp.send (SendCall.command .EntireDisplayOn),
         DriverOp.powerOff, DriverOp.send (SendCall.commandArgs .ColumnAddress 0 127)]
        onMachine) m₂ ∧
      m₂.reg0 = 4294967292 :=
  have h₁ := control_at_rest [DriverOp.send (SendCall.command .EntireDisplayOn)] onMachine
  have h₂ := control_at_rest [DriverOp.send (SendCall.command .EntireDisplayOn),
    DriverOp.powerOff, DriverOp.send (SendCall.commandArgs .ColumnAddress 0 127)] onMachine
  have hin : ∀ (ops : List DriverOp), (∀ op ∈ ops, ∀ call, op = DriverOp.send call →
      call.InBounds) → ∀ call, DriverOp.send call ∈ ops → call.InBounds :=
    fun _ h call hmem => h _ hmem call rfl
  match h₁.2.1 onMachine_idle (hin _ (by simp [SendCall.InBounds])),
    h₂.2.1 onMachine_idle (hin _ (by simp [SendCall.InBounds])) with
  | ⟨m₁, c₁⟩, ⟨m₂, c₂⟩ =>
    match c₁.state, c₂.state with
    | ⟨f₁, e₁⟩, ⟨f₂, e₂⟩ => ⟨m₁, m₂, c₁, (h₁.1 f₁ m₁ e₁).1, c₂, (h₂.1 f₂ m₂ e₂).1⟩

end OledDemo
